import Mathlib

/-!
Verification development for the news-relay bots in this repository
(src/bot.py: Telegram-channel relay; src/main.py: RSS news bot).

The Python code is shallowly embedded: pure helpers become Lean functions
on `String`/`List Char`; the mutable pipeline state becomes explicit state
records threaded through the step functions; every external effect
(HTTP fetch, translation provider, enrichment provider, the Telegram send
calls) is modelled by its outcome, passed in as an explicit argument, since
the code only branches on those outcomes.

Modelling conventions, used throughout:
* Python `set` objects are represented by duplicate-free lists with
  membership-guarded insertion.  A Python set iterates in hash-table order,
  which is implementation defined and not insertion order; wherever the code
  calls `list(some_set)` (the eviction slice in `save_state`) the model takes
  that enumeration as an explicit argument, constrained in theorems to be a
  permutation of the set's elements.
* `hashlib.md5(x).hexdigest()` keys are modelled by the preimage string `x`
  itself (md5 is treated as injective; the code never inspects digests).
* Machine integers do not occur; Python ints are `Int`/`Nat`.
-/

/-! ### Python string primitives -/

/-- Python `str.lower` restricted to the alphabets the code manipulates:
ASCII letters and the Russian Cyrillic letters А-Я and Ё (the only
characters whose lowercase forms are consulted by `is_russian` and the
keyword search).  Other characters are returned unchanged. -/
def py_lower_char (c : Char) : Char :=
  let n := c.toNat
  if 65 ≤ n ∧ n ≤ 90 then Char.ofNat (n + 32)
  else if 0x410 ≤ n ∧ n ≤ 0x42F then Char.ofNat (n + 0x20)
  else if n = 0x401 then Char.ofNat 0x451
  else c

/-- Python `str.upper` on the same alphabets as `py_lower_char`. -/
def py_upper_char (c : Char) : Char :=
  let n := c.toNat
  if 97 ≤ n ∧ n ≤ 122 then Char.ofNat (n - 32)
  else if 0x430 ≤ n ∧ n ≤ 0x44F then Char.ofNat (n - 0x20)
  else if n = 0x451 then Char.ofNat 0x401
  else c

def py_lower_str (s : String) : String := String.mk (s.data.map py_lower_char)

/-- A cased character (ASCII or Russian Cyrillic letter). -/
def py_cased (c : Char) : Bool :=
  let n := c.toNat
  (65 ≤ n ∧ n ≤ 90) ∨ (97 ≤ n ∧ n ≤ 122) ∨
    (0x410 ≤ n ∧ n ≤ 0x44F) ∨ n = 0x401 ∨ n = 0x451

/-- Python `str.isupper`: at least one cased character and no lowercase
cased character. -/
def py_isupper (s : String) : Bool :=
  s.data.any py_cased && s.data.all (fun c => py_upper_char c = c)

/-- Python `str.capitalize`: first character upper-cased, the rest lowered. -/
def py_capitalize (s : String) : String :=
  match s.data with
  | [] => ""
  | c :: rest => String.mk (py_upper_char c :: rest.map py_lower_char)

/-- Python whitespace characters recognised by `str.split`/`str.strip`. -/
def is_py_space (c : Char) : Bool :=
  c = ' ' ∨ c = '\t' ∨ c = '\n' ∨ c = '\r' ∨ c = Char.ofNat 11 ∨ c = Char.ofNat 12

/-- Python `str.strip()` (no argument: strips whitespace at both ends). -/
def py_strip (s : String) : String :=
  String.mk (((s.data.dropWhile is_py_space).reverse.dropWhile is_py_space).reverse)

/-- `str.split()` on whitespace runs, discarding empty pieces. -/
def py_split_ws : List Char → List Char → List (List Char)
  | [], acc => if acc.isEmpty then [] else [acc.reverse]
  | c :: cs, acc =>
    if is_py_space c then
      if acc.isEmpty then py_split_ws cs [] else acc.reverse :: py_split_ws cs []
    else py_split_ws cs (c :: acc)

/-- `' '.join(text.split())`: collapse whitespace runs to single spaces,
dropping leading/trailing whitespace. -/
def collapse_ws_list (l : List Char) : List Char :=
  match py_split_ws l [] with
  | [] => []
  | w :: ws => ws.foldl (fun acc x => acc ++ ' ' :: x) w

/-- Substring test, Python `pat in s` on char lists (empty pattern matches). -/
def list_contains_sub (pat : List Char) : List Char → Bool
  | [] => pat.isEmpty
  | c :: cs => pat.isPrefixOf (c :: cs) || list_contains_sub pat cs

def contains_sub (s pat : String) : Bool := list_contains_sub pat.data s.data

/-- Python `int(str)`: strip whitespace, optional sign, decimal digits.
(The rarely used underscore digit grouping of Python 3.6+ is not modelled;
no identifier in the repository contains one.) -/
def digits_to_nat (l : List Char) : Option Nat :=
  if l ≠ [] ∧ l.all Char.isDigit
  then some (l.foldl (fun a c => a * 10 + (c.toNat - 48)) 0)
  else none

def py_to_int (s : String) : Option Int :=
  match (py_strip s).data with
  | [] => none
  | c :: rest =>
    if c = '-' then (digits_to_nat rest).map (fun n => -(n : Int))
    else if c = '+' then (digits_to_nat rest).map (fun n => (n : Int))
    else (digits_to_nat (c :: rest)).map (fun n => (n : Int))

/-- Truthiness of an optional string (Python: `None` and `""` are falsy). -/
def opt_truthy : Option String → Bool
  | some s => s ≠ ""
  | none => false

def str_take (s : String) (n : Nat) : String := String.mk (s.data.take n)

/-! ### `html.escape` (bot.py: `escape_html`, `escape_attribute`)

`html.escape` with its default `quote=True` replaces, in order,
`&`, `<`, `>`, `"`, `'`; the chained `str.replace` calls are equivalent to
the character-wise expansion below because no replacement string contains a
character replaced by a later step. -/

def escape_char (c : Char) : String :=
  if c = '&' then "&amp;"
  else if c = '<' then "&lt;"
  else if c = '>' then "&gt;"
  else if c = '"' then "&quot;"
  else if c = Char.ofNat 39 then "&#x27;"
  else String.singleton c

def escape_html_list : List Char → List Char
  | [] => []
  | c :: cs => (escape_char c).data ++ escape_html_list cs

def escape_html (s : String) : String := String.mk (escape_html_list s.data)

/-- bot.py `escape_attribute`: `html.escape(value, quote=True)`. -/
def escape_attribute (value : String) : String := escape_html value

/-! ### bot.py rich-text rendering (`ALLOWED_TAGS`, `TAG_MAP`, `render_node`) -/

def ALLOWED_TAGS : List String :=
  ["b", "strong", "i", "em", "u", "ins", "s", "strike", "del",
   "code", "pre", "a", "blockquote", "span", "tg-emoji"]

/-- `node.name.lower()`: tag names are ASCII, so ASCII lowering suffices. -/
def ascii_lower (s : String) : String := String.mk (s.data.map Char.toLower)

/-- bot.py `TAG_MAP.get(name, name)`. -/
def tag_map_get (n : String) : String :=
  if n = "strong" then "b"
  else if n = "em" then "i"
  else if n = "ins" then "u"
  else if n = "strike" then "s"
  else if n = "del" then "s"
  else n

/- A BeautifulSoup node: either a `NavigableString` or a `Tag` with a name,
an `href` attribute (`node.get("href", "")`; the empty string stands for an
absent attribute, exactly as the code reads it) and children. -/
mutual
inductive Node where
  | text (s : String) : Node
  | tag (name : String) (href : String) (children : NodeList) : Node
inductive NodeList where
  | nil : NodeList
  | cons (head : Node) (tail : NodeList) : NodeList
end

mutual
def render_node : Node → String
  | .text s => escape_html s
  | .tag name href children =>
    let nm := ascii_lower name
    if nm = "br" then "\n"
    else if ALLOWED_TAGS.contains nm = false then render_children children
    else
      let mapped := tag_map_get nm
      let inner := render_children children
      if mapped = "span" ∨ mapped = "tg-emoji" then inner
      else if mapped = "a" then
        if href = "" then inner
        else "<a href=\"" ++ escape_attribute href ++ "\">" ++ inner ++ "</a>"
      else "<" ++ mapped ++ ">" ++ inner ++ "</" ++ mapped ++ ">"
def render_children : NodeList → String
  | .nil => ""
  | .cons h t => render_node h ++ render_children t
end

/-- bot.py `html_from_bs`: render the children and replace `\xa0` by a space. -/
def html_from_bs (children : NodeList) : String :=
  (render_children children).replace (String.singleton (Char.ofNat 160)) " "

/- The wrapper tag names actually emitted by `render_node` (canonical forms
after `TAG_MAP`, minus the unwrapped `span`/`tg-emoji` and minus `a`-without-
href, which emits nothing).  Mirrors the branch structure of `render_node`. -/
mutual
def emitted_tags : Node → List String
  | .text _ => []
  | .tag name _href children =>
    let nm := ascii_lower name
    if nm = "br" then []
    else if ALLOWED_TAGS.contains nm = false then emitted_list children
    else
      let mapped := tag_map_get nm
      if mapped = "span" ∨ mapped = "tg-emoji" then emitted_list children
      else mapped :: emitted_list children
def emitted_list : NodeList → List String
  | .nil => []
  | .cons h t => emitted_tags h ++ emitted_list t
end

/-- The canonical tag names the sink may receive. -/
def CANONICAL_TAGS : List String :=
  ["b", "i", "u", "s", "code", "pre", "a", "blockquote"]

/-! ### bot.py Telegram web parser (`TelegramChannelParser`) -/

/- One `div.tgme_widget_message` element, reduced to the fields the parser
reads: the `data-post` attribute, the outputs of `_extract_text`
(`text_html`, `plain_text`) and `_extract_media` (`media_url`), plus the
transport outcomes of the sends `_publish` may later attempt for the
message (`send_photo` / `send_message` succeed or raise). -/
structure MsgElement where
  dataPost : Option String
  textHtml : String
  plainText : String
  mediaUrl : Option String
  photoOk : Bool
  textOk : Bool
deriving DecidableEq, Repr

/-- Python `s.split("/")`: split at every slash, keeping empty pieces. -/
def split_on_slash : List Char → List (List Char)
  | [] => [[]]
  | c :: cs =>
    if c = '/' then [] :: split_on_slash cs
    else
      match split_on_slash cs with
      | w :: ws => (c :: w) :: ws
      | [] => [[c]]

/-- bot.py `TelegramChannelParser._extract_message_id`: the trailing
`/`-separated segment of `data-post`, parsed with `int(...)`; `None` when
the attribute is absent/empty or the segment is not numeric. -/
def extract_message_id (dataPost : Option String) : Option Int :=
  match dataPost with
  | none => none
  | some s =>
    if s = "" then none
    else py_to_int (String.mk ((split_on_slash s.data).getLastD []))

/-- bot.py `ParsedMessage` (the `published_at` capture timestamp is not read
by any modelled code path and is omitted); the send outcomes ride along. -/
structure ParsedMessage where
  channel : String
  message_id : Int
  text_html : String
  plain_text : String
  media_url : Option String
  photoOk : Bool
  textOk : Bool
deriving DecidableEq, Repr

/-- Stable insertion into an ascending-by-id list: the new element goes
after existing elements with equal ids, matching Python's stable
`list.sort(key=...)`. -/
def insert_by_id (m : ParsedMessage) : List ParsedMessage → List ParsedMessage
  | [] => [m]
  | x :: xs =>
    if x.message_id ≤ m.message_id then x :: insert_by_id m xs
    else m :: x :: xs

def sort_by_id (l : List ParsedMessage) : List ParsedMessage :=
  l.foldl (fun acc m => insert_by_id m acc) []

/-- bot.py `TelegramChannelParser.fetch_messages`, from the parsed element
list onward: skip elements whose message id does not extract (`continue`),
build `ParsedMessage` records, sort ascending by id, keep the first
`fetch_limit`. -/
def fetch_messages_model (channel : String) (fetchLimit : Nat)
    (elements : List MsgElement) : List ParsedMessage :=
  let msgs := elements.filterMap fun e =>
    (extract_message_id e.dataPost).map fun mid =>
      ⟨channel, mid, e.textHtml, e.plainText, e.mediaUrl, e.photoOk, e.textOk⟩
  (sort_by_id msgs).take fetchLimit

/-! ### bot.py publish gate (`NewsRelay._publish`) and cycle -/

inductive SendKind where
  | photo : SendKind
  | text : SendKind
deriving DecidableEq, Repr

/-- `text_html = message.text_html or message.plain_text`. -/
def effective_text (m : ParsedMessage) : String :=
  if m.text_html ≠ "" then m.text_html else m.plain_text

/-- bot.py `NewsRelay._publish`: try `send_photo` when a media URL is
present (truthy); on success return `True` immediately; on failure fall
through to a text send when the effective text is non-empty; an empty
message returns `False` with no send.  Returns the success flag and the
ordered list of sink calls attempted. -/
def publish_model (m : ParsedMessage) : Bool × List SendKind :=
  let text_html := effective_text m
  if opt_truthy m.media_url then
    if m.photoOk then (true, [SendKind.photo])
    else if text_html ≠ "" then (m.textOk, [SendKind.photo, SendKind.text])
    else (false, [SendKind.photo])
  else if text_html ≠ "" then (m.textOk, [SendKind.text])
  else (false, [])

/-- bot.py relay state: the sqlite `posted_messages` table as a set of
`(message_id, channel_username)` keys, plus the `stats` counters. -/
structure RelayState where
  posted : List (Int × String)
  lastMessages : Nat
  totalMessages : Nat
deriving DecidableEq, Repr

/-- sqlite `INSERT OR IGNORE`. -/
def posted_add (l : List (Int × String)) (k : Int × String) : List (Int × String) :=
  if k ∈ l then l else k :: l

/-- The per-message body of `NewsRelay._process_cycle`: skip when already
posted (`is_message_posted`); otherwise `_publish`, and only on success
record the key (`add_posted_message`) and bump both counters.  Returns the
new state, whether the message was published, and the sink calls made. -/
def relay_process_message (st : RelayState) (channel : String)
    (m : ParsedMessage) : RelayState × Bool × List SendKind :=
  if (m.message_id, channel) ∈ st.posted then (st, false, [])
  else
    let r := publish_model m
    if r.1 then
      ({ st with posted := posted_add st.posted (m.message_id, channel),
                 lastMessages := st.lastMessages + 1,
                 totalMessages := st.totalMessages + 1 }, true, r.2)
    else (st, false, r.2)

/-- Outcome of `fetch_messages` for one channel: the fetched element list,
an HTTP status other than 200 (logged, `[]` returned), or an exception
raised by the HTTP get — `fetch_messages` has no handler for it, so it
propagates out of `_process_cycle`. -/
inductive RelayFetch where
  | ok (elements : List MsgElement) : RelayFetch
  | httpError (status : Nat) : RelayFetch
  | exc (msg : String) : RelayFetch

def relay_process_channel (st : RelayState) (channel : String) (fl : Nat)
    (f : RelayFetch) : Option RelayState :=
  match f with
  | .exc _ => none
  | .httpError _ => some st
  | .ok elements =>
    some ((fetch_messages_model channel fl elements).foldl
      (fun acc m => (relay_process_message acc channel m).1) st)

/-- The channel loop of `NewsRelay._process_cycle`.  Returns the final
state, the channels visited, and whether an exception aborted the cycle
(it is then caught by `_runner`, which logs, records the error, sleeps and
starts the next cycle from the top). -/
def relay_cycle_channels (st : RelayState) (fl : Nat) :
    List (String × RelayFetch) → RelayState × List String × Bool
  | [] => (st, [], false)
  | (ch, f) :: rest =>
    match relay_process_channel st ch fl f with
    | none => (st, [ch], true)
    | some st' =>
      let r := relay_cycle_channels st' fl rest
      (r.1, ch :: r.2.1, r.2.2)

/-- `NewsRelay._process_cycle` body (inside the lock): reset
`last_messages`, then walk the configured channels in order. -/
def relay_cycle (st : RelayState) (fl : Nat)
    (channels : List (String × RelayFetch)) : RelayState × List String × Bool :=
  relay_cycle_channels { st with lastMessages := 0 } fl channels

/-! ### bot.py cycle scheduler (`NewsRelay._runner` / `self.lock`)

The scheduler is a single task that runs `_process_cycle` (whose whole body
executes under `async with self.lock`) and then sleeps; `stats` readers
never mutate relay state.  The safety argument the spec makes is the mutual
exclusion token, so the model is a transition system in which any number of
cycle starts may be ATTEMPTED, but a cycle may begin only by acquiring the
free lock (asyncio.Lock.acquire is atomic within the single event loop),
and releases it when its channel loop returns.  `tick` models a timer
expiry or a read-only status query: no state change. -/

structure SchedState where
  lock : Bool
  running : Nat
  started : Nat
  finished : Nat
deriving DecidableEq, Repr

inductive SchedStep : SchedState → SchedState → Prop where
  | acquire (s : SchedState) : s.lock = false →
      SchedStep s ⟨true, s.running + 1, s.started + 1, s.finished⟩
  | release (s : SchedState) (k : Nat) : s.running = k + 1 →
      SchedStep s ⟨false, k, s.started, s.finished + 1⟩
  | tick (s : SchedState) : SchedStep s s

def sched_init : SchedState := ⟨false, 0, 0, 0⟩

inductive SchedReach : SchedState → Prop where
  | init : SchedReach sched_init
  | step {s t : SchedState} : SchedReach s → SchedStep s t → SchedReach t

/-! ### main.py content normalisation (`clean_content`, `clean_html_content`)

The `re.sub(pattern, '', text)` pipeline.  Each pattern is compiled into a
left-to-right scanner with Python's leftmost / greedy-quantifier semantics.
Scanners that jump over a match recurse on a strict sub-list via a fuel
argument initialised to the input length; every step consumes at least one
character, so the fuel never runs out on the initial call. -/

/-- After seeing `<`: find the closing `>` with at least one interposed
character (regex `<[^>]+>`); return the remainder after it. -/
def find_tag_close : List Char → Option (List Char)
  | [] => none
  | d :: ds =>
    if d = '>' then none
    else
      let rec go : List Char → Option (List Char)
        | [] => none
        | e :: es => if e = '>' then some es else go es
      go ds

/-- `re.sub(r'<[^>]+>', '', text)`. -/
def strip_tags_fuel : Nat → List Char → List Char
  | 0, l => l
  | fuel + 1, l =>
    match l with
    | [] => []
    | c :: cs =>
      if c = '<' then
        match find_tag_close cs with
        | some rest => strip_tags_fuel fuel rest
        | none => c :: strip_tags_fuel fuel cs
      else c :: strip_tags_fuel fuel cs

def strip_tags (l : List Char) : List Char := strip_tags_fuel l.length l

/-- Remove every occurrence of a fixed pattern, comparing through `f`
(identity for a case-sensitive pattern, `py_lower_char` with a lowered
pattern for `re.IGNORECASE`).  Leftmost, non-overlapping, like `re.sub`. -/
def remove_all_by (f : Char → Char) (pat : List Char) : Nat → List Char → List Char
  | 0, l => l
  | _ + 1, [] => []
  | fuel + 1, c :: cs =>
    if pat ≠ [] ∧ (List.take pat.length (c :: cs)).map f = pat then
      remove_all_by f pat fuel (List.drop pat.length (c :: cs))
    else c :: remove_all_by f pat fuel cs

def remove_all (pat : List Char) (l : List Char) : List Char :=
  remove_all_by (fun c => c) pat l.length l

def remove_all_ci (patLower : List Char) (l : List Char) : List Char :=
  remove_all_by py_lower_char patLower l.length l

/-- One match of `\d{1,2}:\d{2}` at the head of the list (greedy: the
two-digit hour is preferred), returning the remainder. -/
def match_time : List Char → Option (List Char)
  | a :: b :: c :: d :: e :: rest =>
    if a.isDigit ∧ b.isDigit ∧ c = ':' ∧ d.isDigit ∧ e.isDigit then some rest
    else if a.isDigit ∧ b = ':' ∧ c.isDigit ∧ d.isDigit then some (e :: rest)
    else none
  | [a, b, c, d] =>
    if a.isDigit ∧ b = ':' ∧ c.isDigit ∧ d.isDigit then some [] else none
  | _ => none

/-- `re.sub(r'\d{1,2}:\d{2}', '', text)`. -/
def remove_times_fuel : Nat → List Char → List Char
  | 0, l => l
  | _ + 1, [] => []
  | fuel + 1, c :: cs =>
    match match_time (c :: cs) with
    | some rest => remove_times_fuel fuel rest
    | none => c :: remove_times_fuel fuel cs

def remove_times (l : List Char) : List Char := remove_times_fuel l.length l

def now_playing_pat : List Char := "Now playing - Source:".data

/-- `re.sub(r'Now playing - Source:.*?$', '', text)` without `re.MULTILINE`:
`.` does not cross a newline and `$` anchors at the end of the string (or
just before one final newline), so the leftmost viable occurrence swallows
everything to the end; a final newline survives. -/
def np_match_at (t : List Char) : Option (List Char) :=
  if now_playing_pat.isPrefixOf t then
    let rest := t.drop now_playing_pat.length
    match rest.getLast? with
    | some lastChar =>
      if lastChar = '\n' then
        if rest.dropLast.contains '\n' then none else some ['\n']
      else if rest.contains '\n' then none
      else some []
    | none => some []
  else none

def remove_now_playing : List Char → List Char
  | [] => []
  | c :: cs =>
    match np_match_at (c :: cs) with
    | some tail => tail
    | none => c :: remove_now_playing cs

def cnn_pat : List Char := " - CNN".data

/-- `re.sub(r' - CNN$', '', text)`: the suffix ` - CNN`, optionally before
one final newline. -/
def remove_cnn_end (l : List Char) : List Char :=
  if (cnn_pat ++ ['\n']).isSuffixOf l then l.dropLast.dropLast.dropLast.dropLast.dropLast.dropLast.dropLast ++ ['\n']
  else if cnn_pat.isSuffixOf l then l.dropLast.dropLast.dropLast.dropLast.dropLast.dropLast
  else l

def video_ad_pat_lower : List Char := "video ad feedback".data

/-- `html.unescape`, restricted to decimal/hexadecimal character references
and the named entities that occur in news feeds; the long tail of HTML5
names is not consulted by the repository's own logic.  Returns the decoded
character and the number of characters consumed after the `&`. -/
def named_entities : List (String × Char) :=
  [("amp;", '&'), ("lt;", '<'), ("gt;", '>'), ("quot;", '"'),
   ("apos;", Char.ofNat 39), ("nbsp;", Char.ofNat 160),
   ("mdash;", Char.ofNat 0x2014), ("ndash;", Char.ofNat 0x2013),
   ("hellip;", Char.ofNat 0x2026), ("rsquo;", Char.ofNat 0x2019),
   ("lsquo;", Char.ofNat 0x2018), ("rdquo;", Char.ofNat 0x201D),
   ("ldquo;", Char.ofNat 0x201C)]

def parse_entity (rest : List Char) : Option (Char × Nat) :=
  match rest with
  | '#' :: more =>
    let hexMode : Bool := match more with
      | x :: _ => x = 'x' || x = 'X'
      | [] => false
    let isHexDig : Char → Bool := fun c =>
      c.isDigit || (97 ≤ c.toNat ∧ c.toNat ≤ 102) || (65 ≤ c.toNat ∧ c.toNat ≤ 70)
    let body := if hexMode then more.drop 1 else more
    let digits := body.takeWhile (fun c => if hexMode then isHexDig c else c.isDigit)
    if digits = [] then none
    else
      let n := digits.foldl
        (fun a c => a * (if hexMode then 16 else 10) +
          (if c.isDigit then c.toNat - 48
           else if c.toNat ≥ 97 then c.toNat - 87 else c.toNat - 55)) 0
      let consumed := 1 + (if hexMode then 1 else 0) + digits.length
      let withSemi := match body.drop digits.length with
        | ';' :: _ => consumed + 1
        | _ => consumed
      if n.isValidChar then some (Char.ofNat n, withSemi) else none
  | _ =>
    (named_entities.find? (fun p => p.1.data.isPrefixOf rest)).map
      (fun p => (p.2, p.1.length))

def py_unescape_fuel : Nat → List Char → List Char
  | 0, l => l
  | _ + 1, [] => []
  | fuel + 1, c :: cs =>
    if c = '&' then
      match parse_entity cs with
      | some (ch, n) => ch :: py_unescape_fuel fuel (cs.drop n)
      | none => c :: py_unescape_fuel fuel cs
    else c :: py_unescape_fuel fuel cs

def py_unescape (l : List Char) : List Char := py_unescape_fuel l.length l

/-- main.py `NewsBot.clean_content(text, max_length)`: strip tags, decode
entities, drop boilerplate patterns, collapse whitespace, truncate, strip. -/
def clean_content (text : String) (maxLength : Nat) : String :=
  if text = "" then ""
  else
    let t := strip_tags text.data
    let t := py_unescape t
    let t := remove_all_ci video_ad_pat_lower t
    let t := remove_now_playing t
    let t := remove_times t
    let t := remove_all ['.', '.', '.'] t
    let t := remove_cnn_end t
    let t := collapse_ws_list t
    py_strip (String.mk (t.take maxLength))

/-- main.py `NewsBot.clean_html_content`: same scanners, different order,
no entity decoding, no truncation. -/
def clean_html_content (text : String) : String :=
  if text = "" then ""
  else
    let t := strip_tags text.data
    let t := remove_all_ci video_ad_pat_lower t
    let t := remove_now_playing t
    let t := remove_all ['.', '.', '.'] t
    let t := remove_cnn_end t
    let t := remove_times t
    String.mk t

/-- main.py `NewsBot.fetch_article_text`, given the body of a 200 response
(`none` = non-200 or exception, returning `None`):
`' '.join(clean_html_content(html).split())[:500]`. -/
def fetch_article_text (resp : Option String) : Option String :=
  resp.map fun htmlBody =>
    String.mk ((collapse_ws_list (clean_html_content htmlBody).data).take 500)

/-- main.py `NewsBot.escape_markdown`: prefix a backslash to every
MarkdownV2 special character. -/
def markdown_special : List Char := "_*[]()~\x60>#+-=|\x7b\x7d.!".data

def escape_markdown (text : String) : String :=
  String.mk (text.data.foldr
    (fun c acc => if c ∈ markdown_special then '\\' :: c :: acc else c :: acc) [])

/-! ### main.py translation (`is_russian`, `translate_with_mymemory`,
`translate_text`) -/

def russian_letters : List Char := "абвгдеёжзийклмнопрстуфхцчшщъыьэюя".data

/-- main.py `NewsBot.is_russian`: does any character lower to a Russian
letter? -/
def is_russian (text : String) : Bool :=
  text.data.any (fun c => russian_letters.contains (py_lower_char c))

/-- main.py `NewsBot.translate_with_mymemory`.  `resp` is the translated
text from a 200 response whose `responseStatus` is 200; `none` covers every
failure path (non-200, bad payload, exception), in which case the original
text is returned.  An all-uppercase result is capitalised. -/
def translate_with_mymemory (text : String) (resp : Option String) : String :=
  if text = "" then text
  else
    match resp with
    | some translated =>
      if py_isupper translated then py_capitalize translated else translated
    | none => text

/-- Outcomes of the two DeepLX attempts and the MyMemory fallback.  A
`deeplx` component is `some data` when the POST returned HTTP 200 with
`code == 200` and payload `data`; `none` is any transport/status failure. -/
structure TransOracle where
  deeplx1 : Option String
  deeplx2 : Option String
  mymemory : Option String
deriving DecidableEq, Repr

abbrev TransCache := List (String × String)

/-- Cache key: md5 of `f"{text}_{target_lang}"`, modelled by the preimage. -/
def trans_cache_key (text targetLang : String) : String :=
  text ++ "_" ++ targetLang

/-- main.py `NewsBot.translate_text`.  Returns the translated text, the
updated translation cache, and the number of DeepLX / MyMemory calls made.
Empty or already-Russian text returns immediately; then the cache; then up
to two DeepLX attempts, each accepted only if the result passes
`is_russian`; then one MyMemory attempt under the same acceptance test;
otherwise the original text, uncached. -/
def translate_text (text targetLang : String) (cache : TransCache)
    (o : TransOracle) : String × TransCache × Nat × Nat :=
  if text = "" then (text, cache, 0, 0)
  else if is_russian text then (text, cache, 0, 0)
  else
    let key := trans_cache_key text targetLang
    match cache.lookup key with
    | some v => (v, cache, 0, 0)
    | none =>
      let memStep : String × TransCache × Nat × Nat :=
        let tm := translate_with_mymemory text o.mymemory
        if is_russian tm then (tm, (key, tm) :: cache, 2, 1)
        else (text, cache, 2, 1)
      let d2Step : String × TransCache × Nat × Nat :=
        match o.deeplx2 with
        | some t => if is_russian t then (t, (key, t) :: cache, 2, 0) else memStep
        | none => memStep
      match o.deeplx1 with
      | some t => if is_russian t then (t, (key, t) :: cache, 1, 0) else d2Step
      | none => d2Step

/-! ### main.py configuration constants and research agent -/

def MAX_HISTORY_SIZE : Nat := 1000
def RESEARCH_MAX_LENGTH : Nat := 2000
def RESEARCH_MIN_LENGTH : Nat := 800
def RESEARCH_AGENT_ENABLED : Bool := true

def RESEARCH_KEYWORDS : List String :=
  ["AI", "искусственный интеллект", "машинное обучение",
   "нейросети", "deep learning", "LLM", "GPT",
   "квантовые вычисления", "quantum computing",
   "криптовалюта", "blockchain", "Web3",
   "кибербезопасность", "cybersecurity"]

def NEWS_SOURCES : List (String × String) :=
  [("Habr", "https://habr.com/ru/rss/articles/"),
   ("3DNews", "https://3dnews.ru/news/rss//"),
   ("Ars Technica", "https://feeds.arstechnica.com/arstechnica/index/"),
   ("Engadget", "https://www.engadget.com/rss.xml"),
   ("TechCrunch", "https://techcrunch.com/feed/"),
   ("TechNode", "https://technode.com/feed/"),
   ("South China Morning Post (Tech)", "https://www.scmp.com/rss/92/feed/"),
   ("Nikkei Asia (Tech)", "https://www.techinasia.com/japan/feed"),
   ("Tech in Asia (Japan) ", "https://www.techinasia.com/japan/feed"),
   ("Japan Times (Tech News)", "https://www.japantimes.co.jp/search?query=feed")]

/-- main.py `ResearchAgent.should_research`: enabled, description at least
`RESEARCH_MIN_LENGTH` characters, and a case-insensitive keyword hit in
`f"{title} {description}"`. -/
def should_research (title description : String) : Bool :=
  if RESEARCH_AGENT_ENABLED = false then false
  else if description.length < RESEARCH_MIN_LENGTH then false
  else RESEARCH_KEYWORDS.any fun kw =>
    contains_sub (py_lower_str (title ++ " " ++ description)) (py_lower_str kw)

/-- Outcome of the DeepSeek chat completion call in `research_topic`. -/
inductive ResearchOutcome where
  | ok (report : String) : ResearchOutcome
  | errStatus (code : Nat) : ResearchOutcome
  | exc (msg : String) : ResearchOutcome
deriving DecidableEq, Repr

abbrev RCache := List (String × String)

/-- main.py `ResearchAgent.research_topic`: md5-keyed cache (modelled by the
topic string), then the API call; HTTP and exception failures return a
placeholder string and leave the cache untouched. -/
def research_topic (cache : RCache) (topic : String) (o : ResearchOutcome) :
    String × RCache :=
  match cache.lookup topic with
  | some r => (r, cache)
  | none =>
    match o with
    | .ok report => (report, (topic, report) :: cache)
    | .errStatus code =>
      ("⚠️ Не удалось провести исследование. Ошибка API: " ++ toString code, cache)
    | .exc msg => ("⚠️ Ошибка исследования: " ++ msg, cache)

/-! ### main.py `NewsBot` state, persistence and pipeline -/

/-- The mutable `NewsBot` state the pipeline touches: the two identity sets
(`posted_links`, `content_checks`, duplicate-free lists standing for Python
sets), the translation cache, the research agent's cache, and the number of
completed `save_state` calls (the persistence counter). -/
structure BotState where
  posted_links : List String
  content_checks : List String
  translation_cache : TransCache
  research_cache : RCache
  saves : Nat
deriving DecidableEq, Repr

/-- Python `set.add`. -/
def set_add (l : List String) (x : String) : List String :=
  if x ∈ l then l else x :: l

/-- main.py `NewsBot.save_state`: when a set exceeds `MAX_HISTORY_SIZE` it
is replaced by `set(list(s)[-MAX_HISTORY_SIZE:])`.  `list(s)` enumerates a
Python set in hash-table order; that enumeration is the explicit `enumL` /
`enumC` argument (theorems constrain it to a permutation of the set).  The
JSON dump itself always happens; `saves` counts it. -/
def save_state (st : BotState) (enumL enumC : List String) : BotState :=
  let pl := if st.posted_links.length > MAX_HISTORY_SIZE
            then enumL.drop (enumL.length - MAX_HISTORY_SIZE)
            else st.posted_links
  let cc := if st.content_checks.length > MAX_HISTORY_SIZE
            then enumC.drop (enumC.length - MAX_HISTORY_SIZE)
            else st.content_checks
  { st with posted_links := pl, content_checks := cc, saves := st.saves + 1 }

/-- An RSS entry, reduced to the fields `prepare_news_message` reads. -/
inductive PyTag where
  | withTerm (term : String) : PyTag
  | plain (s : String) : PyTag
  | other : PyTag
deriving DecidableEq, Repr

structure Entry where
  title : String
  link : String
  description : String
  entryId : String
  tags : List PyTag
deriving DecidableEq, Repr

/-- The external outcomes consumed while processing one entry: the article
page body for `fetch_article_text` (`none` = failure), the three
translation calls, the research call, the image discovered by
`get_best_image` (whose probing is pure I/O over entry fields and the
linked page; no claim depends on its internals, so it is abstracted by its
result), the send outcome, and the set enumerations used if `save_state`
has to evict. -/
structure EntryOracles where
  articleResp : Option String
  titleTrans : TransOracle
  descTrans : TransOracle
  catTrans : TransOracle
  research : ResearchOutcome
  image : Option String
  sendOk : Bool
  enumLinks : List String
  enumChecks : List String
deriving DecidableEq, Repr

/-- The dict returned by `prepare_news_message`. -/
structure NewsItem where
  message : String
  image_url : Option String
  link : String
  content_hash : String
  is_research : Bool
deriving DecidableEq, Repr

/-- The description selection in `prepare_news_message`: the cleaned
`entry['description']`, or — when that is empty — the fetched article text,
provided it is truthy; otherwise the entry is dropped. -/
def prepare_description (e : Entry) (o : EntryOracles) : Option String :=
  let d := clean_content e.description 500
  if d ≠ "" then some d
  else
    match fetch_article_text o.articleResp with
    | some t => if t = "" then none else some t
    | none => none

/-- The content fingerprint `prepare_news_message` computes:
md5 of `f"{original_title}{original_description}"` (modelled by the
preimage). -/
def fingerprint_of (e : Entry) (o : EntryOracles) : String :=
  clean_content e.title 120 ++ (prepare_description e o).getD ""

/-- The source attribution loop over `NEWS_SOURCES`. -/
def find_source (entryId link : String) : String :=
  match NEWS_SOURCES.find? (fun p => contains_sub entryId p.2 || contains_sub link p.2) with
  | some p => p.1
  | none => "Новости"

/-- The category extraction from `entry['tags']`. -/
def category_of (e : Entry) : String :=
  match e.tags with
  | [] => "Общее"
  | t :: _ =>
    match t with
    | .withTerm s => s
    | .plain s => s
    | .other => "Общее"

/-- The tail of `prepare_news_message` after all dedup checks have passed:
translate the title, maybe research, translate or replace the description,
pick the image and category, build the MarkdownV2 message.  Always yields a
news item. -/
def prepare_rest (st : BotState) (e : Entry) (o : EntryOracles)
    (original_title original_description content_hash : String) :
    Option NewsItem × TransCache × RCache :=
  let t1 := translate_text original_title "RU" st.translation_cache o.titleTrans
  let translated_title := t1.1
  let cache1 := t1.2.1
  let res : Option String × RCache :=
    if should_research original_title original_description then
      let topic := original_title ++ "\n\n" ++ original_description
      let rr := research_topic st.research_cache topic o.research
      let rep := if rr.1 ≠ "" ∧ rr.1.length > RESEARCH_MAX_LENGTH
                 then str_take rr.1 RESEARCH_MAX_LENGTH ++ "..."
                 else rr.1
      (some rep, rr.2)
    else (none, st.research_cache)
  let rrTruthy : Bool := opt_truthy res.1
  let t2 := if rrTruthy then ((res.1).getD "", cache1, 0, 0)
            else translate_text original_description "RU" cache1 o.descTrans
  let translated_description := t2.1
  let cache2 := t2.2.1
  let image_url := o.image
  let original_category := category_of e
  let t3 := translate_text original_category "RU" cache2 o.catTrans
  let translated_category := t3.1
  let cache3 := t3.2.1
  let source := find_source e.entryId e.link
  let escaped_title := escape_markdown translated_title
  let escaped_description := escape_markdown translated_description
  let escaped_category := escape_markdown translated_category
  let escaped_source := escape_markdown (source.replace " " "")
  let head := "📰 *" ++ escaped_title ++ "*\n\n" ++ escaped_description ++ "\n\n"
  let message :=
    if rrTruthy = false then
      head ++ "\\#" ++ escaped_source ++ " \\#" ++ escaped_category ++ "\n" ++
        "🔗 [Читать полностью](" ++ e.link ++ ")"
    else
      head ++ "🔍 *Исследовательский отчет* \\#" ++ escaped_source ++ "\n" ++
        "🔗 [Исходная статья](" ++ e.link ++ ")"
  (some ⟨message, image_url, e.link, content_hash, rrTruthy⟩, cache3, res.2)

/-- main.py `NewsBot.prepare_news_message`: the dedup gate.  Returns the
optional news item together with the translation and research caches as
left after the call (`none` on every skip path: empty title, empty link,
link already posted, no description obtainable, fingerprint already seen —
all of which return before any translation). -/
def prepare_news_message (st : BotState) (e : Entry) (o : EntryOracles) :
    Option NewsItem × TransCache × RCache :=
  let skip : Option NewsItem × TransCache × RCache :=
    (none, st.translation_cache, st.research_cache)
  let original_title := clean_content e.title 120
  if original_title = "" then skip
  else if e.link = "" then skip
  else if e.link ∈ st.posted_links then skip
  else
    match prepare_description e o with
    | none => skip
    | some original_description =>
      let content_hash := original_title ++ original_description
      if content_hash ∈ st.content_checks then skip
      else prepare_rest st e o original_title original_description content_hash

/-- The shape of the single sink call `send_news_item` makes. -/
inductive MainSend where
  | mediaGroup : MainSend
  | message : MainSend
deriving DecidableEq, Repr

/-- main.py `NewsBot.send_news_item`: one send (media group when an image
is present and the item is not a research report, else a plain message).
On success: add the link and the content hash to the identity sets,
`save_state`, return `True`.  On failure (the send raised): discard the
content hash from `content_checks` and return `False` — no save.  Returns
the new state, the success flag, and the sink calls attempted. -/
def send_news_item (st : BotState) (item : NewsItem) (sendOk : Bool)
    (enumL enumC : List String) : BotState × Bool × List MainSend :=
  let disable_preview := item.is_research
  let shape := if opt_truthy item.image_url ∧ disable_preview = false
               then MainSend.mediaGroup else MainSend.message
  if sendOk then
    let st1 := { st with posted_links := set_add st.posted_links item.link,
                         content_checks := set_add st.content_checks item.content_hash }
    (save_state st1 enumL enumC, true, [shape])
  else
    ({ st with content_checks := st.content_checks.erase item.content_hash },
     false, [shape])

/-- The per-entry body of the loop in `fetch_and_publish_news`: prepare,
and send when prepared.  Returns the new state and whether the entry was
published. -/
def process_entry (st : BotState) (e : Entry) (o : EntryOracles) :
    BotState × Bool :=
  match prepare_news_message st e o with
  | (none, c, rc) => ({ st with translation_cache := c, research_cache := rc }, false)
  | (some item, c, rc) =>
    let st1 := { st with translation_cache := c, research_cache := rc }
    let r := send_news_item st1 item o.sendOk o.enumLinks o.enumChecks
    (r.1, r.2.1)

/-- Outcome of one source in a cycle of `fetch_and_publish_news`.
`failed` covers `fetch_feed` returning `None` (all attempts exhausted), an
empty entry list, and any exception caught by the per-source handler. -/
inductive SourceOutcome where
  | fetched (entries : List (Entry × EntryOracles)) : SourceOutcome
  | failed : SourceOutcome

/-- The per-source body: take the first three entries and process each
(per-entry exceptions are already absorbed inside `prepare_news_message`
and `send_news_item`).  Returns the new state and the publish count. -/
def process_source (st : BotState) (so : SourceOutcome) : BotState × Nat :=
  match so with
  | .failed => (st, 0)
  | .fetched entries =>
    (entries.take 3).foldl
      (fun acc eo =>
        let r := process_entry acc.1 eo.1 eo.2
        (r.1, acc.2 + if r.2 then 1 else 0))
      (st, 0)

/-- One cycle of main.py `fetch_and_publish_news`: every configured source
is visited in order; a failed source contributes nothing and the loop
continues.  Returns the final state, the total publish count, and the list
of sources visited. -/
def run_cycle (st : BotState) :
    List (String × SourceOutcome) → BotState × Nat × List String
  | [] => (st, 0, [])
  | (name, so) :: rest =>
    let r1 := process_source st so
    let r2 := run_cycle r1.1 rest
    (r2.1, r1.2 + r2.2.1, name :: r2.2.2)

/-! ## Theorems -/

/-! ### Escape safety and rendering lemmas -/

theorem escape_char_safe (c : Char) :
    '<' ∉ (escape_char c).data ∧ '>' ∉ (escape_char c).data ∧ '"' ∉ (escape_char c).data := by
  unfold escape_char
  split_ifs with h1 h2 h3 h4 h5 <;> simp_all [String.singleton, eq_comm]

theorem escape_html_list_safe (l : List Char) :
    '<' ∉ escape_html_list l ∧ '>' ∉ escape_html_list l ∧ '"' ∉ escape_html_list l := by
  induction l with
  | nil => simp [escape_html_list]
  | cons c cs ih =>
    have h := escape_char_safe c
    simp only [escape_html_list, List.mem_append]
    exact ⟨fun hx => hx.elim h.1 ih.1, fun hx => hx.elim h.2.1 ih.2.1,
           fun hx => hx.elim h.2.2 ih.2.2⟩

theorem escape_html_safe (s : String) :
    '<' ∉ (escape_html s).data ∧ '>' ∉ (escape_html s).data ∧ '"' ∉ (escape_html s).data := by
  simpa [escape_html] using escape_html_list_safe s.data

theorem tag_map_canonical (nm : String) (h : nm ∈ ALLOWED_TAGS)
    (h2 : ¬(tag_map_get nm = "span" ∨ tag_map_get nm = "tg-emoji")) :
    tag_map_get nm ∈ CANONICAL_TAGS := by
  simp [ALLOWED_TAGS] at h
  rcases h with rfl|rfl|rfl|rfl|rfl|rfl|rfl|rfl|rfl|rfl|rfl|rfl|rfl|rfl|rfl <;>
    revert h2 <;> decide

theorem emitted_tags_canonical_pair :
    (∀ n : Node, ∀ t ∈ emitted_tags n, t ∈ CANONICAL_TAGS) ∧
    (∀ l : NodeList, ∀ t ∈ emitted_list l, t ∈ CANONICAL_TAGS) := by
  have step1 : ∀ (s : String), ∀ t ∈ emitted_tags (Node.text s), t ∈ CANONICAL_TAGS := by
    intro s t ht; simp [emitted_tags] at ht
  have step2 : ∀ (name href : String) (children : NodeList),
      (∀ t ∈ emitted_list children, t ∈ CANONICAL_TAGS) →
      ∀ t ∈ emitted_tags (Node.tag name href children), t ∈ CANONICAL_TAGS := by
    intro name href children ih t ht
    by_cases hbr : ascii_lower name = "br"
    · simp [emitted_tags, hbr] at ht
    · by_cases hall : ALLOWED_TAGS.contains (ascii_lower name) = false
      · simp only [emitted_tags, if_neg hbr, if_pos hall] at ht
        exact ih t ht
      · have hmem : ascii_lower name ∈ ALLOWED_TAGS := by
          revert hall
          cases hcc : ALLOWED_TAGS.contains (ascii_lower name) with
          | false => intro hh; exact absurd rfl hh
          | true => intro _; simpa using hcc
        by_cases hspan : tag_map_get (ascii_lower name) = "span" ∨
            tag_map_get (ascii_lower name) = "tg-emoji"
        · simp only [emitted_tags, if_neg hbr, if_neg hall, if_pos hspan] at ht
          exact ih t ht
        · simp only [emitted_tags, if_neg hbr, if_neg hall, if_neg hspan,
            List.mem_cons] at ht
          rcases ht with rfl | ht
          · exact tag_map_canonical _ hmem hspan
          · exact ih t ht
  have step3 : ∀ t ∈ emitted_list NodeList.nil, t ∈ CANONICAL_TAGS := by
    intro t ht; simp [emitted_list] at ht
  have step4 : ∀ (head : Node) (tail : NodeList),
      (∀ t ∈ emitted_tags head, t ∈ CANONICAL_TAGS) →
      (∀ t ∈ emitted_list tail, t ∈ CANONICAL_TAGS) →
      ∀ t ∈ emitted_list (NodeList.cons head tail), t ∈ CANONICAL_TAGS := by
    intro head tail ih1 ih2 t ht
    simp only [emitted_list, List.mem_append] at ht
    exact ht.elim (ih1 t) (ih2 t)
  exact ⟨@Node.rec (fun n => ∀ t ∈ emitted_tags n, t ∈ CANONICAL_TAGS)
      (fun l => ∀ t ∈ emitted_list l, t ∈ CANONICAL_TAGS) step1 step2 step3 step4,
    @NodeList.rec (fun n => ∀ t ∈ emitted_tags n, t ∈ CANONICAL_TAGS)
      (fun l => ∀ t ∈ emitted_list l, t ∈ CANONICAL_TAGS) step1 step2 step3 step4⟩

/-- C5: rich-text rendering emits only allow-listed tags, maps the synonym
tags strong→b, em→i, ins→u, strike→s, del→s, drops any tag outside the
allow-list while rendering its children (so text content is preserved),
converts `br` to a newline, unwraps `span` and `tg-emoji`, and HTML-escapes
leaf text and attribute values (no raw `<`, `>` — and no raw `"` in an
attribute — survives escaping; `&` is expanded to `&amp;`). -/
theorem c5_rich_text_safety :
    (∀ s : String, render_node (Node.text s) = escape_html s ∧
       '<' ∉ (escape_html s).data ∧ '>' ∉ (escape_html s).data) ∧
    (∀ (href : String) (children : NodeList),
       render_node (Node.tag "strong" href children) =
         "<b>" ++ render_children children ++ "</b>" ∧
       render_node (Node.tag "em" href children) =
         "<i>" ++ render_children children ++ "</i>" ∧
       render_node (Node.tag "ins" href children) =
         "<u>" ++ render_children children ++ "</u>" ∧
       render_node (Node.tag "strike" href children) =
         "<s>" ++ render_children children ++ "</s>" ∧
       render_node (Node.tag "del" href children) =
         "<s>" ++ render_children children ++ "</s>") ∧
    (∀ (name href : String) (children : NodeList),
       ALLOWED_TAGS.contains (ascii_lower name) = false →
       ascii_lower name ≠ "br" →
       render_node (Node.tag name href children) = render_children children) ∧
    (∀ (href : String) (children : NodeList),
       render_node (Node.tag "br" href children) = "\n") ∧
    (∀ (href : String) (children : NodeList),
       render_node (Node.tag "span" href children) = render_children children ∧
       render_node (Node.tag "tg-emoji" href children) = render_children children) ∧
    (∀ (href : String) (children : NodeList), href ≠ "" →
       render_node (Node.tag "a" href children) =
         "<a href=\"" ++ escape_attribute href ++ "\">" ++
           render_children children ++ "</a>") ∧
    (∀ v : String, '<' ∉ (escape_attribute v).data ∧ '>' ∉ (escape_attribute v).data ∧
       '"' ∉ (escape_attribute v).data) ∧
    (∀ n : Node, ∀ t ∈ emitted_tags n, t ∈ CANONICAL_TAGS) := by
  refine ⟨?_, ?_, ?_, ?_, ?_, ?_, ?_, emitted_tags_canonical_pair.1⟩
  · intro s
    exact ⟨rfl, (escape_html_safe s).1, (escape_html_safe s).2.1⟩
  · intro href children
    have h1 : ascii_lower "strong" = "strong" := by decide
    have h2 : ascii_lower "em" = "em" := by decide
    have h3 : ascii_lower "ins" = "ins" := by decide
    have h4 : ascii_lower "strike" = "strike" := by decide
    have h5 : ascii_lower "del" = "del" := by decide
    refine ⟨?_, ?_, ?_, ?_, ?_⟩ <;>
      simp [render_node, h1, h2, h3, h4, h5, tag_map_get, ALLOWED_TAGS,
        String.append_assoc]
  · intro name href children hall hbr
    simp [render_node, hall, hbr]
    intro hmem
    simp [hmem] at hall
  · intro href children
    have h : ascii_lower "br" = "br" := by decide
    simp [render_node, h]
  · intro href children
    have h1 : ascii_lower "span" = "span" := by decide
    have h2 : ascii_lower "tg-emoji" = "tg-emoji" := by decide
    constructor <;> simp [render_node, h1, h2, tag_map_get, ALLOWED_TAGS]
  · intro href children h
    have h1 : ascii_lower "a" = "a" := by decide
    simp [render_node, h1, tag_map_get, ALLOWED_TAGS, h, String.append_assoc]
  · intro v
    exact escape_html_safe v

/-- Witness for C5: a `script` tag wrapping `a<b&c` renders as the escaped
inner text with the tag removed, and the hypotheses of the applied
conjuncts hold at these inputs. -/
theorem c5_witness :
    ALLOWED_TAGS.contains (ascii_lower "script") = false ∧
    ascii_lower "script" ≠ "br" ∧
    render_node (Node.tag "script" ""
      (NodeList.cons (Node.text "a<b&c") NodeList.nil)) = "a&lt;b&amp;c" ∧
    ("http://x" : String) ≠ "" ∧
    render_node (Node.tag "a" "http://x" NodeList.nil) = "<a href=\"http://x\"></a>" :=
  ⟨by decide, by decide,
   (c5_rich_text_safety.2.2.1 "script" ""
      (NodeList.cons (Node.text "a<b&c") NodeList.nil) (by decide) (by decide)).trans
     (by decide),
   by decide,
   (c5_rich_text_safety.2.2.2.2.2.1 "http://x" NodeList.nil (by decide)).trans
     (by decide)⟩

/-! ### Sorting lemmas for the parser -/

theorem mem_insert_by_id (a m : ParsedMessage) (l : List ParsedMessage) :
    a ∈ insert_by_id m l ↔ a = m ∨ a ∈ l := by
  induction l with
  | nil => simp [insert_by_id]
  | cons x xs ih =>
    simp only [insert_by_id]
    split <;> simp [ih] <;> tauto

theorem mem_sort_by_id (a : ParsedMessage) (l : List ParsedMessage) :
    a ∈ sort_by_id l ↔ a ∈ l := by
  have key : ∀ (l : List ParsedMessage) (acc : List ParsedMessage),
      a ∈ l.foldl (fun acc m => insert_by_id m acc) acc ↔ a ∈ acc ∨ a ∈ l := by
    intro l
    induction l with
    | nil => simp
    | cons x xs ih =>
      intro acc
      simp only [List.foldl_cons, ih, mem_insert_by_id, List.mem_cons]
      tauto
  simpa [sort_by_id] using key l []

/-- C9 counterexample: an element whose `data-post` has a non-numeric
trailing segment is dropped by the extractor (`continue`), not kept as an
id-less candidate — the claimed "kept with no id" behaviour does not occur. -/
theorem c9_counterexample :
    extract_message_id (some "chan/abc") = none ∧
    fetch_messages_model "chan" 20
      [⟨some "chan/abc", "hello", "hello", none, true, true⟩] = [] := by
  constructor <;> rfl

/-- C9 (amended): the numeric id is the trailing numeric path segment of
`data-post`; an element whose segment is absent or non-numeric is skipped,
so every parsed message originates from an element whose identifier parsed
to the message's numeric id, and at most `fetch_limit` messages survive. -/
theorem c9_extract_id_amended :
    ∀ (channel : String) (fl : Nat) (elements : List MsgElement)
      (m : ParsedMessage), m ∈ fetch_messages_model channel fl elements →
      (∃ e ∈ elements, extract_message_id e.dataPost = some m.message_id ∧
        m.channel = channel ∧ m.text_html = e.textHtml ∧
        m.plain_text = e.plainText ∧ m.media_url = e.mediaUrl) := by
  intro channel fl elements m hm
  have hm1 : m ∈ sort_by_id (elements.filterMap fun e =>
      (extract_message_id e.dataPost).map fun mid =>
        ⟨channel, mid, e.textHtml, e.plainText, e.mediaUrl, e.photoOk, e.textOk⟩) := by
    exact List.take_subset _ _ hm
  rw [mem_sort_by_id] at hm1
  rw [List.mem_filterMap] at hm1
  obtain ⟨e, he, heq⟩ := hm1
  rw [Option.map_eq_some'] at heq
  obtain ⟨mid, hmid, hmk⟩ := heq
  refine ⟨e, he, ?_, ?_, ?_, ?_, ?_⟩ <;> rw [← hmk] <;> simpa using hmid

/-- Witness for C9 (amended): two elements with numeric ids 2 and 1; the
id-1 message is in the parser output (sorted first) and the theorem
recovers its originating element. -/
theorem c9_witness :
    (⟨"c", 1, "a", "a", none, true, true⟩ : ParsedMessage) ∈
      fetch_messages_model "c" 20
        [⟨some "c/2", "b", "b", none, true, true⟩,
         ⟨some "c/1", "a", "a", none, true, true⟩] ∧
    (∃ e ∈ ([⟨some "c/2", "b", "b", none, true, true⟩,
             ⟨some "c/1", "a", "a", none, true, true⟩] : List MsgElement),
      extract_message_id e.dataPost =
        some (⟨"c", 1, "a", "a", none, true, true⟩ : ParsedMessage).message_id ∧
      (⟨"c", 1, "a", "a", none, true, true⟩ : ParsedMessage).channel = "c" ∧
      (⟨"c", 1, "a", "a", none, true, true⟩ : ParsedMessage).text_html = e.textHtml ∧
      (⟨"c", 1, "a", "a", none, true, true⟩ : ParsedMessage).plain_text = e.plainText ∧
      (⟨"c", 1, "a", "a", none, true, true⟩ : ParsedMessage).media_url = e.mediaUrl) :=
  ⟨by decide, c9_extract_id_amended "c" 20 _ _ (by decide)⟩

/-- C6 counterexample: a photo-only message (empty `text_html` and
`plain_text`) whose photo send fails gets NO text-only fallback — zero text
sends, not the claimed "exactly one". -/
theorem c6_counterexample :
    opt_truthy (⟨"ch", 1, "", "", some "http://img", false, true⟩ :
      ParsedMessage).media_url = true ∧
    (⟨"ch", 1, "", "", some "http://img", false, true⟩ : ParsedMessage).photoOk
      = false ∧
    publish_model ⟨"ch", 1, "", "", some "http://img", false, true⟩ =
      (false, [SendKind.photo]) ∧
    (publish_model ⟨"ch", 1, "", "", some "http://img", false, true⟩).2.count
      SendKind.text = 0 := by
  refine ⟨rfl, rfl, by decide, by decide⟩

/-- C6 (amended): when the image send of an image-bearing message fails,
exactly one text-only send is attempted — provided the message has
non-empty effective text; a message without text is given up after the
photo attempt alone.  A successful image send is never followed by another
send, and main.py's `send_news_item` always makes exactly one sink call. -/
theorem c6_image_fallback_amended :
    (∀ m : ParsedMessage, opt_truthy m.media_url = true →
      (m.photoOk = true → publish_model m = (true, [SendKind.photo])) ∧
      (m.photoOk = false → effective_text m ≠ "" →
        publish_model m = (m.textOk, [SendKind.photo, SendKind.text])) ∧
      (m.photoOk = false → effective_text m = "" →
        publish_model m = (false, [SendKind.photo]))) ∧
    (∀ (st : BotState) (item : NewsItem) (sendOk : Bool) (eL eC : List String),
      ((send_news_item st item sendOk eL eC).2.2).length = 1) := by
  constructor
  · intro m hm
    refine ⟨?_, ?_, ?_⟩
    · intro hp; simp [publish_model, hm, hp]
    · intro hp ht; simp [publish_model, hm, hp, ht]
    · intro hp ht; simp [publish_model, hm, hp, ht]
  · intro st item sendOk eL eC
    cases sendOk <;> simp [send_news_item]

/-- Witness for C6 (amended): a message with an image and text whose photo
send fails attempts photo then text; one with a succeeding photo send sends
only the photo. -/
theorem c6_witness :
    opt_truthy (⟨"ch", 2, "txt", "", some "http://i", false, true⟩ :
      ParsedMessage).media_url = true ∧
    effective_text ⟨"ch", 2, "txt", "", some "http://i", false, true⟩ ≠ "" ∧
    publish_model ⟨"ch", 2, "txt", "", some "http://i", false, true⟩ =
      (true, [SendKind.photo, SendKind.text]) ∧
    publish_model ⟨"ch", 2, "txt", "", some "http://i", true, true⟩ =
      (true, [SendKind.photo]) :=
  ⟨by decide, by decide,
   ((c6_image_fallback_amended.1 ⟨"ch", 2, "txt", "", some "http://i", false, true⟩
      (by decide)).2.1 (by decide) (by decide)).trans (by decide),
   (c6_image_fallback_amended.1 ⟨"ch", 2, "txt", "", some "http://i", true, true⟩
      (by decide)).1 (by decide)⟩

/-- C10: a parsed message with empty rich text, empty plain text and no
media URL leads to zero sink calls, `_publish` returns `False`, and the
per-message step leaves the posted store and the counters untouched — so
the message stays unmarked and is re-examined on every later cycle while
the source still serves it. -/
theorem c10_empty_message_skip :
    ∀ (st : RelayState) (channel : String) (m : ParsedMessage),
      m.text_html = "" → m.plain_text = "" → m.media_url = none →
      publish_model m = (false, []) ∧
      relay_process_message st channel m = (st, false, []) := by
  intro st channel m h1 h2 h3
  have hp : publish_model m = (false, []) := by
    simp [publish_model, effective_text, h1, h2, h3, opt_truthy]
  refine ⟨hp, ?_⟩
  by_cases hmem : (m.message_id, channel) ∈ st.posted
  · simp [relay_process_message, hmem]
  · simp [relay_process_message, hmem, hp]

/-- Witness for C10: a concrete empty message against an empty store. -/
theorem c10_witness :
    (⟨"c", 5, "", "", none, true, true⟩ : ParsedMessage).text_html = "" ∧
    (⟨"c", 5, "", "", none, true, true⟩ : ParsedMessage).plain_text = "" ∧
    (⟨"c", 5, "", "", none, true, true⟩ : ParsedMessage).media_url = none ∧
    publish_model ⟨"c", 5, "", "", none, true, true⟩ = (false, []) ∧
    relay_process_message ⟨[], 0, 0⟩ "c" ⟨"c", 5, "", "", none, true, true⟩ =
      (⟨[], 0, 0⟩, false, []) :=
  ⟨rfl, rfl, rfl,
   (c10_empty_message_skip ⟨[], 0, 0⟩ "c" _ rfl rfl rfl).1,
   (c10_empty_message_skip ⟨[], 0, 0⟩ "c" _ rfl rfl rfl).2⟩

/-! ### C8: cycle serialization -/

/-- The scheduler invariant: at most one cycle runs at any time, started
cycles are exactly finished-plus-running, and a free lock means nothing is
running. -/
def sched_inv (s : SchedState) : Prop :=
  s.running ≤ 1 ∧ s.started = s.finished + s.running ∧
    (s.lock = false → s.running = 0)

theorem sched_inv_holds (s : SchedState) (h : SchedReach s) : sched_inv s := by
  induction h with
  | init => exact ⟨by simp [sched_init], by simp [sched_init], fun _ => rfl⟩
  | @step s t hr hs ih =>
    cases hs with
    | acquire hl =>
      have h0 : s.running = 0 := ih.2.2 hl
      have h1 := ih.2.1
      exact ⟨show s.running + 1 ≤ 1 by omega,
        show s.started + 1 = s.finished + (s.running + 1) by omega,
        by simp⟩
    | release k hk =>
      have h1 := ih.1
      have h2 := ih.2.1
      exact ⟨show k ≤ 1 by omega, show s.started = s.finished + 1 + k by omega,
        fun _ => show k = 0 by omega⟩
    | tick => exact ih

/-- C8: at most one cycle ever runs at a time (the lock serialises cycles),
and a step that starts a new cycle can only fire from a state where nothing
is running and every started cycle has finished — so cycle N+1 begins only
after cycle N has fully returned; a `tick` arriving mid-cycle changes
nothing.  (Real time is abstracted away: the fixed sleep interval only
determines when `tick`/`acquire` become enabled.) -/
theorem c8_no_overlap :
    (∀ s : SchedState, SchedReach s →
      s.running ≤ 1 ∧ s.started = s.finished + s.running) ∧
    (∀ s t : SchedState, SchedReach s → SchedStep s t →
      t.started > s.started → s.running = 0 ∧ s.started = s.finished) := by
  constructor
  · intro s h
    exact ⟨(sched_inv_holds s h).1, (sched_inv_holds s h).2.1⟩
  · intro s t hr hs hgt
    cases hs with
    | acquire hl =>
      have hz : s.running = 0 := (sched_inv_holds s hr).2.2 hl
      have he : s.started = s.finished + s.running := (sched_inv_holds s hr).2.1
      exact ⟨hz, by omega⟩
    | release k hk => simp at hgt
    | tick => simp at hgt

/-- Witness for C8: the state after one `acquire` from the initial state is
reachable, and the theorem's conclusions hold there. -/
theorem c8_witness :
    SchedReach ⟨true, 1, 1, 0⟩ ∧
    (⟨true, 1, 1, 0⟩ : SchedState).running ≤ 1 ∧
    (⟨true, 1, 1, 0⟩ : SchedState).started =
      (⟨true, 1, 1, 0⟩ : SchedState).finished +
        (⟨true, 1, 1, 0⟩ : SchedState).running ∧
    sched_init.running = 0 ∧ sched_init.started = sched_init.finished := by
  have hr : SchedReach (⟨true, 1, 1, 0⟩ : SchedState) :=
    SchedReach.step SchedReach.init (SchedStep.acquire sched_init rfl)
  have hstep : SchedStep sched_init ⟨true, 1, 1, 0⟩ :=
    SchedStep.acquire sched_init rfl
  have h2 := c8_no_overlap.2 sched_init ⟨true, 1, 1, 0⟩ SchedReach.init hstep
    (by simp [sched_init])
  exact ⟨hr, (c8_no_overlap.1 _ hr).1, (c8_no_overlap.1 _ hr).2, h2.1, h2.2⟩

/-! ### C3: eviction in `save_state` -/

theorem save_state_posted_of_gt (st : BotState) (enumL enumC : List String)
    (h : st.posted_links.length > MAX_HISTORY_SIZE) :
    (save_state st enumL enumC).posted_links =
      enumL.drop (enumL.length - MAX_HISTORY_SIZE) := by
  simp [save_state, h]

theorem save_state_posted_of_le (st : BotState) (enumL enumC : List String)
    (h : ¬ st.posted_links.length > MAX_HISTORY_SIZE) :
    (save_state st enumL enumC).posted_links = st.posted_links := by
  simp [save_state, h]

theorem save_state_checks_of_gt (st : BotState) (enumL enumC : List String)
    (h : st.content_checks.length > MAX_HISTORY_SIZE) :
    (save_state st enumL enumC).content_checks =
      enumC.drop (enumC.length - MAX_HISTORY_SIZE) := by
  simp [save_state, h]

theorem save_state_checks_of_le (st : BotState) (enumL enumC : List String)
    (h : ¬ st.content_checks.length > MAX_HISTORY_SIZE) :
    (save_state st enumL enumC).content_checks = st.content_checks := by
  simp [save_state, h]

theorem save_state_saves (st : BotState) (enumL enumC : List String) :
    (save_state st enumL enumC).saves = st.saves + 1 := by
  simp [save_state]

set_option maxRecDepth 8000 in
/-- C3 counterexample: 1001 links inserted in the order `l, lx, lxx, …`
(index = insertion age, `l` oldest).  `list(posted_links)` may enumerate
the set in ANY hash-table order; with the reverse enumeration — a
permutation of the set, as required — `save_state` keeps the OLDEST
inserted link and evicts the NEWEST, contradicting "oldest-inserted absent
and newest-inserted present". -/
theorem c3_counterexample :
    ((List.range 1001).map fun n => "l" ++ String.mk (List.replicate n 'x')).reverse.Perm
      ((List.range 1001).map fun n => "l" ++ String.mk (List.replicate n 'x')) ∧
    ((List.range 1001).map fun n =>
      "l" ++ String.mk (List.replicate n 'x')).length > MAX_HISTORY_SIZE ∧
    ("l" ++ String.mk (List.replicate 0 'x')) ∈
      (save_state
        ⟨(List.range 1001).map fun n => "l" ++ String.mk (List.replicate n 'x'),
         [], [], [], 0⟩
        ((List.range 1001).map fun n =>
          "l" ++ String.mk (List.replicate n 'x')).reverse []).posted_links ∧
    ("l" ++ String.mk (List.replicate 1000 'x')) ∉
      (save_state
        ⟨(List.range 1001).map fun n => "l" ++ String.mk (List.replicate n 'x'),
         [], [], [], 0⟩
        ((List.range 1001).map fun n =>
          "l" ++ String.mk (List.replicate n 'x')).reverse []).posted_links := by
  have hM : MAX_HISTORY_SIZE = 1000 := rfl
  have hlen : ((List.range 1001).map fun n =>
      "l" ++ String.mk (List.replicate n 'x')).length = 1001 := by
    rw [List.length_map, List.length_range]
  have hgt : ((List.range 1001).map fun n =>
      "l" ++ String.mk (List.replicate n 'x')).length > MAX_HISTORY_SIZE := by
    rw [hlen, hM]; omega
  have hsplit : (List.range 1001).map
      (fun n => "l" ++ String.mk (List.replicate n 'x')) =
      ((List.range 1000).map fun n => "l" ++ String.mk (List.replicate n 'x')) ++
        ["l" ++ String.mk (List.replicate 1000 'x')] := by
    rw [List.range_succ, List.map_append, List.map_singleton]
  have hres : (save_state
      ⟨(List.range 1001).map fun n => "l" ++ String.mk (List.replicate n 'x'),
       [], [], [], 0⟩
      ((List.range 1001).map fun n =>
        "l" ++ String.mk (List.replicate n 'x')).reverse []).posted_links =
      (((List.range 1000).map fun n =>
        "l" ++ String.mk (List.replicate n 'x')).reverse) := by
    rw [save_state_posted_of_gt
      ⟨(List.range 1001).map fun n => "l" ++ String.mk (List.replicate n 'x'),
       [], [], [], 0⟩
      (((List.range 1001).map fun n =>
        "l" ++ String.mk (List.replicate n 'x')).reverse) [] hgt,
      List.length_reverse, hlen, hM]
    have h1 : (1001 : Nat) - 1000 = 1 := by omega
    rw [h1, hsplit, List.reverse_append, List.reverse_singleton,
      List.singleton_append, List.drop_one, List.tail_cons]
  have hinj : ∀ n : Nat, ("l" ++ String.mk (List.replicate n 'x')).length = 1 + n := by
    intro n
    rw [String.length_append]
    show ("l" : String).length + (List.replicate n 'x').length = 1 + n
    rw [List.length_replicate]
    rfl
  refine ⟨List.reverse_perm _, hgt, ?_, ?_⟩
  · rw [hres, List.mem_reverse, List.mem_map]
    exact ⟨0, by simp, rfl⟩
  · rw [hres, List.mem_reverse, List.mem_map]
    rintro ⟨m, hm, heq⟩
    have h1 := hinj m
    rw [heq, hinj 1000] at h1
    rw [List.mem_range] at hm
    omega

/-- C3 (amended): whenever an identity set exceeds `MAX_HISTORY_SIZE`, the
persistence step reduces it to exactly the ceiling, keeping only elements
of the original set — but WHICH elements survive is determined by the
implementation-defined hash-table enumeration of the Python set, not by
insertion order; sets at or below the ceiling are left unchanged, and the
persistence counter always advances. -/
theorem c3_eviction_bound_amended :
    ∀ (st : BotState) (enumL enumC : List String),
      enumL.Perm st.posted_links → enumC.Perm st.content_checks →
      (st.posted_links.length > MAX_HISTORY_SIZE →
        (save_state st enumL enumC).posted_links.length = MAX_HISTORY_SIZE ∧
        ∀ x ∈ (save_state st enumL enumC).posted_links, x ∈ st.posted_links) ∧
      (st.posted_links.length ≤ MAX_HISTORY_SIZE →
        (save_state st enumL enumC).posted_links = st.posted_links) ∧
      (st.content_checks.length > MAX_HISTORY_SIZE →
        (save_state st enumL enumC).content_checks.length = MAX_HISTORY_SIZE ∧
        ∀ x ∈ (save_state st enumL enumC).content_checks, x ∈ st.content_checks) ∧
      (st.content_checks.length ≤ MAX_HISTORY_SIZE →
        (save_state st enumL enumC).content_checks = st.content_checks) ∧
      (save_state st enumL enumC).saves = st.saves + 1 := by
  intro st enumL enumC hpermL hpermC
  have hlenL : enumL.length = st.posted_links.length := hpermL.length_eq
  have hlenC : enumC.length = st.content_checks.length := hpermC.length_eq
  refine ⟨?_, ?_, ?_, ?_, save_state_saves st enumL enumC⟩
  · intro hgt
    rw [save_state_posted_of_gt st enumL enumC hgt]
    constructor
    · rw [List.length_drop]; omega
    · intro x hx
      exact hpermL.subset (List.drop_subset _ _ hx)
  · intro hle
    exact save_state_posted_of_le st enumL enumC (by omega)
  · intro hgt
    rw [save_state_checks_of_gt st enumL enumC hgt]
    constructor
    · rw [List.length_drop]; omega
    · intro x hx
      exact hpermC.subset (List.drop_subset _ _ hx)
  · intro hle
    exact save_state_checks_of_le st enumL enumC (by omega)

set_option maxRecDepth 8000 in
/-- Witness for C3 (amended): the 1001-element state with the identity
enumeration is trimmed to exactly the ceiling. -/
theorem c3_witness :
    ((List.range 1001).map fun n =>
      "l" ++ String.mk (List.replicate n 'x')).length > MAX_HISTORY_SIZE ∧
    (save_state
      ⟨(List.range 1001).map fun n => "l" ++ String.mk (List.replicate n 'x'),
       [], [], [], 0⟩
      ((List.range 1001).map fun n => "l" ++ String.mk (List.replicate n 'x'))
      []).posted_links.length = MAX_HISTORY_SIZE := by
  have hM : MAX_HISTORY_SIZE = 1000 := rfl
  have hgt : ((List.range 1001).map fun n =>
      "l" ++ String.mk (List.replicate n 'x')).length > MAX_HISTORY_SIZE := by
    rw [List.length_map, List.length_range, hM]; omega
  exact ⟨hgt,
    ((c3_eviction_bound_amended
      ⟨(List.range 1001).map fun n => "l" ++ String.mk (List.replicate n 'x'),
       [], [], [], 0⟩
      ((List.range 1001).map fun n => "l" ++ String.mk (List.replicate n 'x'))
      [] (List.Perm.refl _) (List.Perm.refl _)).1 hgt).1⟩

/-! ### C4: translation fallback chain -/

/-- C4: for non-empty text that is not already Russian and misses the
cache, `translate_text` makes at most two DeepLX calls and at most one
MyMemory call; the first result that passes the target-language check is
cached and returned (first DeepLX attempt, then the second after a failed
or wrong-script first, then MyMemory after two failed attempts); when
nothing passes, the original text is returned with the cache unchanged; and
any call that hits the cache returns the cached value with zero provider
calls. -/
theorem c4_translation_fallback :
    ∀ (text targetLang : String) (cache : TransCache) (o : TransOracle),
      text ≠ "" → is_russian text = false →
      (∀ v, cache.lookup (trans_cache_key text targetLang) = some v →
        translate_text text targetLang cache o = (v, cache, 0, 0)) ∧
      (cache.lookup (trans_cache_key text targetLang) = none →
        ((translate_text text targetLang cache o).2.2.1 ≤ 2 ∧
         (translate_text text targetLang cache o).2.2.2 ≤ 1) ∧
        (∀ t, o.deeplx1 = some t → is_russian t = true →
          translate_text text targetLang cache o =
            (t, (trans_cache_key text targetLang, t) :: cache, 1, 0)) ∧
        ((∀ u, o.deeplx1 = some u → is_russian u = false) →
          ∀ t, o.deeplx2 = some t → is_russian t = true →
          translate_text text targetLang cache o =
            (t, (trans_cache_key text targetLang, t) :: cache, 2, 0)) ∧
        ((∀ u, o.deeplx1 = some u → is_russian u = false) →
         (∀ u, o.deeplx2 = some u → is_russian u = false) →
          (is_russian (translate_with_mymemory text o.mymemory) = true →
            translate_text text targetLang cache o =
              (translate_with_mymemory text o.mymemory,
               (trans_cache_key text targetLang,
                translate_with_mymemory text o.mymemory) :: cache, 2, 1)) ∧
          (is_russian (translate_with_mymemory text o.mymemory) = false →
            translate_text text targetLang cache o = (text, cache, 2, 1)))) ∧
      (∀ (cacheB : TransCache) (r : String) (oB : TransOracle),
        cacheB.lookup (trans_cache_key text targetLang) = some r →
        translate_text text targetLang cacheB oB = (r, cacheB, 0, 0)) := by
  intro text targetLang cache o hne hru
  have hit : ∀ (cacheB : TransCache) (r : String) (oB : TransOracle),
      cacheB.lookup (trans_cache_key text targetLang) = some r →
      translate_text text targetLang cacheB oB = (r, cacheB, 0, 0) := by
    intro cacheB r oB hl
    simp [translate_text, hne, hru, hl]
  refine ⟨fun v hv => hit cache v o hv, ?_, hit⟩
  intro hmiss
  refine ⟨?_, ?_, ?_, ?_⟩
  · cases h1 : o.deeplx1 with
    | some t =>
      cases ht : is_russian t with
      | true => simp [translate_text, hne, hru, hmiss, h1, ht]
      | false =>
        cases h2 : o.deeplx2 with
        | some u =>
          cases hu : is_russian u with
          | true => simp [translate_text, hne, hru, hmiss, h1, ht, h2, hu]
          | false =>
            cases hmm : is_russian (translate_with_mymemory text o.mymemory) <;>
              simp [translate_text, hne, hru, hmiss, h1, ht, h2, hu, hmm]
        | none =>
          cases hmm : is_russian (translate_with_mymemory text o.mymemory) <;>
            simp [translate_text, hne, hru, hmiss, h1, ht, h2, hmm]
    | none =>
      cases h2 : o.deeplx2 with
      | some u =>
        cases hu : is_russian u with
        | true => simp [translate_text, hne, hru, hmiss, h1, h2, hu]
        | false =>
          cases hmm : is_russian (translate_with_mymemory text o.mymemory) <;>
            simp [translate_text, hne, hru, hmiss, h1, h2, hu, hmm]
      | none =>
        cases hmm : is_russian (translate_with_mymemory text o.mymemory) <;>
          simp [translate_text, hne, hru, hmiss, h1, h2, hmm]
  · intro t h1 ht
    simp [translate_text, hne, hru, hmiss, h1, ht]
  · intro hfail1 t h2 ht
    cases h1 : o.deeplx1 with
    | some u =>
      have hu : is_russian u = false := hfail1 u h1
      simp [translate_text, hne, hru, hmiss, h1, hu, h2, ht]
    | none => simp [translate_text, hne, hru, hmiss, h1, h2, ht]
  · intro hfail1 hfail2
    constructor <;> intro hmm
    all_goals
      cases h1 : o.deeplx1 with
      | some u =>
        have hu : is_russian u = false := hfail1 u h1
        cases h2 : o.deeplx2 with
        | some w =>
          have hw : is_russian w = false := hfail2 w h2
          simp [translate_text, hne, hru, hmiss, h1, hu, h2, hw, hmm]
        | none => simp [translate_text, hne, hru, hmiss, h1, hu, h2, hmm]
      | none =>
        cases h2 : o.deeplx2 with
        | some w =>
          have hw : is_russian w = false := hfail2 w h2
          simp [translate_text, hne, hru, hmiss, h1, h2, hw, hmm]
        | none => simp [translate_text, hne, hru, hmiss, h1, h2, hmm]

/-- Witness for C4: "hello" with both DeepLX attempts failing and MyMemory
returning "привет": the secondary result is returned and cached; the
follow-up call with the updated cache returns the cached value with zero
provider calls. -/
theorem c4_witness :
    ("hello" : String) ≠ "" ∧ is_russian "hello" = false ∧
    ([] : TransCache).lookup (trans_cache_key "hello" "RU") = none ∧
    is_russian (translate_with_mymemory "hello" (some "привет")) = true ∧
    translate_text "hello" "RU" [] ⟨none, none, some "привет"⟩ =
      ("привет", [(trans_cache_key "hello" "RU", "привет")], 2, 1) ∧
    translate_text "hello" "RU" [(trans_cache_key "hello" "RU", "привет")]
      ⟨none, none, none⟩ =
      ("привет", [(trans_cache_key "hello" "RU", "привет")], 0, 0) := by
  refine ⟨by decide, by decide, by decide, by decide, ?_, ?_⟩
  · have h := (((c4_translation_fallback "hello" "RU" []
      ⟨none, none, some "привет"⟩ (by decide) (by decide)).2.1
      (by decide)).2.2.2 (fun u hu => by cases hu) (fun u hu => by cases hu)).1
      (by decide)
    exact h.trans (by decide)
  · exact (c4_translation_fallback "hello" "RU"
      [(trans_cache_key "hello" "RU", "привет")] ⟨none, none, none⟩
      (by decide) (by decide)).2.2
      [(trans_cache_key "hello" "RU", "привет")] "привет" ⟨none, none, none⟩
      (by decide)

/-! ### C7: per-source failure isolation -/

/-- C7 counterexample (bot.py): channel "a"'s fetch raises (`session.get`
has no handler inside `fetch_messages`, and `_process_cycle` has no
per-channel handler), so the cycle aborts: channel "b" is not visited and
its publishable message is not published this cycle — even though "b"
alone would publish it. -/
theorem c7_counterexample :
    relay_cycle ⟨[], 0, 0⟩ 20
      [("a", RelayFetch.exc "boom"),
       ("b", RelayFetch.ok [⟨some "b/1", "hi", "hi", none, true, true⟩])] =
      (⟨[], 0, 0⟩, ["a"], true) ∧
    ((relay_cycle ⟨[], 0, 0⟩ 20
      [("b", RelayFetch.ok [⟨some "b/1", "hi", "hi", none, true, true⟩])]).1.posted
        = [(1, "b")] ∧
     (relay_cycle ⟨[], 0, 0⟩ 20
      [("b", RelayFetch.ok [⟨some "b/1", "hi", "hi", none, true, true⟩])]).1.totalMessages
        = 1) := by
  refine ⟨by decide, by decide, by decide⟩

/-- C7 (amended): in main.py the per-source handler isolates failures — a
source whose fetch fails (or whose feed is empty) contributes nothing and
the remaining sources are processed exactly as if it were absent, and every
configured source is visited.  In bot.py the same holds for a fetch that
RETURNS failure (non-200 → empty list), but not for a fetch that RAISES
(see the counterexample): the remaining channels of that cycle are skipped
until the next cycle. -/
theorem c7_cycle_isolation_amended :
    (∀ (st : BotState) (name : String) (rest : List (String × SourceOutcome)),
      run_cycle st ((name, SourceOutcome.failed) :: rest) =
        ((run_cycle st rest).1, (run_cycle st rest).2.1,
         name :: (run_cycle st rest).2.2)) ∧
    (∀ (st : BotState) (sources : List (String × SourceOutcome)),
      (run_cycle st sources).2.2 = sources.map Prod.fst) ∧
    (∀ (st : RelayState) (fl : Nat) (ch : String) (status : Nat)
       (rest : List (String × RelayFetch)),
      relay_cycle_channels st fl ((ch, RelayFetch.httpError status) :: rest) =
        ((relay_cycle_channels st fl rest).1,
         ch :: (relay_cycle_channels st fl rest).2.1,
         (relay_cycle_channels st fl rest).2.2)) := by
  refine ⟨?_, ?_, ?_⟩
  · intro st name rest
    simp [run_cycle, process_source]
  · intro st sources
    induction sources generalizing st with
    | nil => simp [run_cycle]
    | cons hd tl ih => simp [run_cycle, ih]
  · intro st fl ch status rest
    simp [relay_cycle_channels, relay_process_channel]

/-! ### C1/C2: dedup gate and commit-on-success -/

theorem prepare_rest_shape (st : BotState) (e : Entry) (o : EntryOracles)
    (a b h : String) :
    ∃ m ir c rc, prepare_rest st e o a b h = (some ⟨m, o.image, e.link, h, ir⟩, c, rc) :=
  ⟨_, _, _, _, rfl⟩

theorem prepare_skip (st : BotState) (e : Entry) (o : EntryOracles)
    (hsk : e.link ∈ st.posted_links ∨ fingerprint_of e o ∈ st.content_checks) :
    prepare_news_message st e o = (none, st.translation_cache, st.research_cache) := by
  by_cases h1 : clean_content e.title 120 = ""
  · simp [prepare_news_message, h1]
  · by_cases h2 : e.link = ""
    · simp [prepare_news_message, h1, h2]
    · by_cases h3 : e.link ∈ st.posted_links
      · simp [prepare_news_message, h1, h2, h3]
      · rcases hsk with hsk | hsk
        · exact absurd hsk h3
        · cases hd : prepare_description e o with
          | none => simp [prepare_news_message, h1, h2, h3, hd]
          | some d =>
            have hfp : fingerprint_of e o = clean_content e.title 120 ++ d := by
              simp [fingerprint_of, hd]
            rw [hfp] at hsk
            simp [prepare_news_message, h1, h2, h3, hd, hsk]

theorem prepare_eq_some (st : BotState) (e : Entry) (o : EntryOracles) (d : String)
    (h1 : clean_content e.title 120 ≠ "") (h2 : e.link ≠ "")
    (h3 : e.link ∉ st.posted_links)
    (h4 : prepare_description e o = some d)
    (h5 : clean_content e.title 120 ++ d ∉ st.content_checks) :
    ∃ item c rc, prepare_news_message st e o = (some item, c, rc) ∧
      item.link = e.link ∧ item.content_hash = clean_content e.title 120 ++ d := by
  obtain ⟨m, ir, c, rc, hshape⟩ :=
    prepare_rest_shape st e o (clean_content e.title 120) d
      (clean_content e.title 120 ++ d)
  refine ⟨⟨m, o.image, e.link, clean_content e.title 120 ++ d, ir⟩, c, rc, ?_, rfl, rfl⟩
  simp [prepare_news_message, h1, h2, h3, h4, h5, hshape]

theorem prepare_some_conditions (st : BotState) (e : Entry) (o : EntryOracles)
    (item : NewsItem) (c : TransCache) (rc : RCache)
    (h : prepare_news_message st e o = (some item, c, rc)) :
    e.link ∉ st.posted_links ∧ item.link = e.link ∧
    item.content_hash = fingerprint_of e o ∧
    item.content_hash ∉ st.content_checks := by
  by_cases h1 : clean_content e.title 120 = ""
  · simp [prepare_news_message, h1] at h
  · by_cases h2 : e.link = ""
    · simp [prepare_news_message, h1, h2] at h
    · by_cases h3 : e.link ∈ st.posted_links
      · simp [prepare_news_message, h1, h2, h3] at h
      · cases hd : prepare_description e o with
        | none => simp [prepare_news_message, h1, h2, h3, hd] at h
        | some d =>
          by_cases h5 : clean_content e.title 120 ++ d ∈ st.content_checks
          · simp [prepare_news_message, h1, h2, h3, hd, h5] at h
          · obtain ⟨m, ir, cc, rcc, hshape⟩ :=
              prepare_rest_shape st e o (clean_content e.title 120) d
                (clean_content e.title 120 ++ d)
            rw [show prepare_news_message st e o =
                prepare_rest st e o (clean_content e.title 120) d
                  (clean_content e.title 120 ++ d) by
              simp [prepare_news_message, h1, h2, h3, hd, h5], hshape] at h
            have hitem : item =
                ⟨m, o.image, e.link, clean_content e.title 120 ++ d, ir⟩ := by
              have h0 := congrArg Prod.fst h
              simpa using h0.symm
            subst hitem
            exact ⟨h3, rfl, by simp [fingerprint_of, hd], h5⟩

theorem set_add_length (l : List String) (x : String) :
    (set_add l x).length ≤ l.length + 1 := by
  unfold set_add; split <;> simp

theorem mem_set_add_self (l : List String) (x : String) : x ∈ set_add l x := by
  unfold set_add; split <;> simp [*]

theorem posted_add_mem_self (l : List (Int × String)) (k : Int × String) :
    k ∈ posted_add l k := by
  unfold posted_add; split <;> simp [*]

theorem send_news_item_success (st : BotState) (item : NewsItem)
    (enumL enumC : List String)
    (hL : st.posted_links.length < MAX_HISTORY_SIZE)
    (hC : st.content_checks.length < MAX_HISTORY_SIZE) :
    (send_news_item st item true enumL enumC).1.posted_links =
      set_add st.posted_links item.link ∧
    (send_news_item st item true enumL enumC).1.content_checks =
      set_add st.content_checks item.content_hash ∧
    (send_news_item st item true enumL enumC).1.saves = st.saves + 1 ∧
    (send_news_item st item true enumL enumC).2.1 = true := by
  have hL1 := set_add_length st.posted_links item.link
  have hC1 := set_add_length st.content_checks item.content_hash
  have hL2 : ¬ (set_add st.posted_links item.link).length > MAX_HISTORY_SIZE := by
    omega
  have hC2 : ¬ (set_add st.content_checks item.content_hash).length >
      MAX_HISTORY_SIZE := by omega
  refine ⟨?_, ?_, ?_, rfl⟩
  · show (save_state _ enumL enumC).posted_links = _
    rw [save_state_posted_of_le _ _ _ hL2]
  · show (save_state _ enumL enumC).content_checks = _
    rw [save_state_checks_of_le _ _ _ hC2]
  · show (save_state _ enumL enumC).saves = _
    rw [save_state_saves]

theorem send_news_item_fail (st : BotState) (item : NewsItem)
    (enumL enumC : List String) (h : item.content_hash ∉ st.content_checks) :
    (send_news_item st item false enumL enumC).1 = st ∧
    (send_news_item st item false enumL enumC).2.1 = false := by
  constructor
  · show ({ st with content_checks := st.content_checks.erase item.content_hash }
      : BotState) = st
    rw [List.erase_of_not_mem h]
  · rfl

theorem process_entry_skip (st : BotState) (e : Entry) (o : EntryOracles)
    (h : e.link ∈ st.posted_links ∨ fingerprint_of e o ∈ st.content_checks) :
    process_entry st e o = (st, false) := by
  simp [process_entry, prepare_skip st e o h]

/-- C1: an entry is skipped — `prepare_news_message` returns before any
transformation and the per-entry step makes no sink call and leaves the
state untouched — whenever EITHER its link is already in `posted_links` OR
its content fingerprint is already in `content_checks`; in bot.py a message
whose `(message_id, channel)` key is posted is skipped the same way.  And
two candidates with different links but identical title and description
fields yield exactly one publish: the first is sent, the second is skipped
by the fingerprint. -/
theorem c1_dedup_skip_link_rotation :
    (∀ (st : BotState) (e : Entry) (o : EntryOracles),
      e.link ∈ st.posted_links ∨ fingerprint_of e o ∈ st.content_checks →
      prepare_news_message st e o = (none, st.translation_cache, st.research_cache) ∧
      process_entry st e o = (st, false)) ∧
    (∀ (st : RelayState) (channel : String) (m : ParsedMessage),
      (m.message_id, channel) ∈ st.posted →
      relay_process_message st channel m = (st, false, [])) ∧
    (∀ (st : BotState) (e1 e2 : Entry) (o1 o2 : EntryOracles),
      e1.title = e2.title → e1.description = e2.description →
      e1.link ≠ e2.link →
      clean_content e1.title 120 ≠ "" → e1.link ≠ "" →
      e1.link ∉ st.posted_links →
      clean_content e1.description 500 ≠ "" →
      clean_content e1.title 120 ++ clean_content e1.description 500 ∉
        st.content_checks →
      o1.sendOk = true →
      st.posted_links.length < MAX_HISTORY_SIZE →
      st.content_checks.length < MAX_HISTORY_SIZE →
      (process_entry st e1 o1).2 = true ∧
      process_entry (process_entry st e1 o1).1 e2 o2 =
        ((process_entry st e1 o1).1, false)) := by
  refine ⟨?_, ?_, ?_⟩
  · intro st e o h
    exact ⟨prepare_skip st e o h, process_entry_skip st e o h⟩
  · intro st channel m h
    simp [relay_process_message, h]
  · intro st e1 e2 o1 o2 htitle hdesc hlink h4 h5 h6 h7 h8 hsend hL hC
    have hd1 : prepare_description e1 o1 = some (clean_content e1.description 500) := by
      simp [prepare_description, h7]
    obtain ⟨item, c, rc, hps, hlinkeq, hhash⟩ :=
      prepare_eq_some st e1 o1 _ h4 h5 h6 hd1 h8
    have hpe : process_entry st e1 o1 =
        ((send_news_item { st with translation_cache := c, research_cache := rc }
            item o1.sendOk o1.enumLinks o1.enumChecks).1,
         (send_news_item { st with translation_cache := c, research_cache := rc }
            item o1.sendOk o1.enumLinks o1.enumChecks).2.1) := by
      simp [process_entry, hps]
    rw [hsend] at hpe
    have hsucc := send_news_item_success
      { st with translation_cache := c, research_cache := rc } item
      o1.enumLinks o1.enumChecks hL hC
    constructor
    · rw [hpe]; exact hsucc.2.2.2
    · apply process_entry_skip
      right
      have hfp2 : fingerprint_of e2 o2 = item.content_hash := by
        rw [hhash]
        simp [fingerprint_of, prepare_description, ← hdesc, ← htitle, h7]
      rw [hfp2, hpe, hsucc.2.1]
      exact mem_set_add_self _ _

/-- Witness for C1: a concrete entry is published from the empty state; a
second entry with the same title and description but another link is then
skipped; a relay message whose key is posted is skipped. -/
theorem c1_witness :
    clean_content "Breaking News" 120 ≠ "" ∧
    clean_content "Something happened today" 500 ≠ "" ∧
    ("http://a/1" : String) ≠ "http://b/2" ∧
    (process_entry ⟨[], [], [], [], 0⟩
      ⟨"Breaking News", "http://a/1", "Something happened today", "", []⟩
      ⟨none, ⟨none, none, none⟩, ⟨none, none, none⟩, ⟨none, none, none⟩,
       ResearchOutcome.exc "x", none, true, [], []⟩).2 = true ∧
    process_entry
      (process_entry ⟨[], [], [], [], 0⟩
        ⟨"Breaking News", "http://a/1", "Something happened today", "", []⟩
        ⟨none, ⟨none, none, none⟩, ⟨none, none, none⟩, ⟨none, none, none⟩,
         ResearchOutcome.exc "x", none, true, [], []⟩).1
      ⟨"Breaking News", "http://b/2", "Something happened today", "", []⟩
      ⟨none, ⟨none, none, none⟩, ⟨none, none, none⟩, ⟨none, none, none⟩,
       ResearchOutcome.exc "x", none, true, [], []⟩ =
      ((process_entry ⟨[], [], [], [], 0⟩
        ⟨"Breaking News", "http://a/1", "Something happened today", "", []⟩
        ⟨none, ⟨none, none, none⟩, ⟨none, none, none⟩, ⟨none, none, none⟩,
         ResearchOutcome.exc "x", none, true, [], []⟩).1, false) ∧
    relay_process_message ⟨[(1, "c")], 0, 0⟩ "c" ⟨"c", 1, "hi", "hi", none, true, true⟩
      = (⟨[(1, "c")], 0, 0⟩, false, []) := by
  have hmain := c1_dedup_skip_link_rotation.2.2 ⟨[], [], [], [], 0⟩
    ⟨"Breaking News", "http://a/1", "Something happened today", "", []⟩
    ⟨"Breaking News", "http://b/2", "Something happened today", "", []⟩
    ⟨none, ⟨none, none, none⟩, ⟨none, none, none⟩, ⟨none, none, none⟩,
     ResearchOutcome.exc "x", none, true, [], []⟩
    ⟨none, ⟨none, none, none⟩, ⟨none, none, none⟩, ⟨none, none, none⟩,
     ResearchOutcome.exc "x", none, true, [], []⟩
    rfl rfl (by decide) (by decide) (by decide) (by decide) (by decide)
    (by decide) rfl (by decide) (by decide)
  exact ⟨by decide, by decide, by decide, hmain.1, hmain.2,
    c1_dedup_skip_link_rotation.2.1 ⟨[(1, "c")], 0, 0⟩ "c"
      ⟨"c", 1, "hi", "hi", none, true, true⟩ (by decide)⟩

/-- C2: the identity sets are mutated only on a confirmed send.  When the
send fails, the per-entry step leaves `posted_links`, `content_checks` and
the persistence counter exactly as before the attempt and reports failure
(the item stays unmarked, so a later cycle sees it again); when the send of
a prepared item succeeds, the link and the fingerprint are marked and the
state is persisted.  In bot.py, a failed publish leaves the posted store
and both counters untouched, and a successful one records the key and
increments both counters. -/
theorem c2_mark_only_after_success :
    (∀ (st : BotState) (e : Entry) (o : EntryOracles), o.sendOk = false →
      (process_entry st e o).1.posted_links = st.posted_links ∧
      (process_entry st e o).1.content_checks = st.content_checks ∧
      (process_entry st e o).1.saves = st.saves ∧
      (process_entry st e o).2 = false) ∧
    (∀ (st : BotState) (e : Entry) (o : EntryOracles) (item : NewsItem)
       (c : TransCache) (rc : RCache),
      prepare_news_message st e o = (some item, c, rc) →
      o.sendOk = true →
      st.posted_links.length < MAX_HISTORY_SIZE →
      st.content_checks.length < MAX_HISTORY_SIZE →
      (process_entry st e o).2 = true ∧
      item.link ∈ (process_entry st e o).1.posted_links ∧
      item.content_hash ∈ (process_entry st e o).1.content_checks ∧
      (process_entry st e o).1.saves = st.saves + 1) ∧
    (∀ (st : RelayState) (channel : String) (m : ParsedMessage),
      ((publish_model m).1 = false →
        (relay_process_message st channel m).1 = st) ∧
      ((m.message_id, channel) ∉ st.posted → (publish_model m).1 = true →
        (m.message_id, channel) ∈ (relay_process_message st channel m).1.posted ∧
        (relay_process_message st channel m).1.totalMessages =
          st.totalMessages + 1 ∧
        (relay_process_message st channel m).1.lastMessages =
          st.lastMessages + 1)) := by
  refine ⟨?_, ?_, ?_⟩
  · intro st e o hfail
    rcases hp : prepare_news_message st e o with ⟨opt, c, rc⟩
    cases opt with
    | none => simp [process_entry, hp]
    | some item =>
      have hcond := prepare_some_conditions st e o item c rc hp
      have hnm : item.content_hash ∉
          ({ st with translation_cache := c, research_cache := rc } :
            BotState).content_checks := hcond.2.2.2
      have hf := send_news_item_fail
        { st with translation_cache := c, research_cache := rc } item
        o.enumLinks o.enumChecks hnm
      simp [process_entry, hp, hfail, hf.1, hf.2]
  · intro st e o item c rc hp hok hL hC
    have hpe : process_entry st e o =
        ((send_news_item { st with translation_cache := c, research_cache := rc }
            item o.sendOk o.enumLinks o.enumChecks).1,
         (send_news_item { st with translation_cache := c, research_cache := rc }
            item o.sendOk o.enumLinks o.enumChecks).2.1) := by
      simp [process_entry, hp]
    rw [hok] at hpe
    have hsucc := send_news_item_success
      { st with translation_cache := c, research_cache := rc } item
      o.enumLinks o.enumChecks hL hC
    rw [hpe]
    exact ⟨hsucc.2.2.2, hsucc.1 ▸ mem_set_add_self _ _,
      hsucc.2.1 ▸ mem_set_add_self _ _, hsucc.2.2.1⟩
  · intro st channel m
    constructor
    · intro hpub
      by_cases hmem : (m.message_id, channel) ∈ st.posted
      · simp [relay_process_message, hmem]
      · simp [relay_process_message, hmem, hpub]
    · intro hmem hpub
      simp only [relay_process_message, if_neg hmem, hpub, if_pos]
      exact ⟨posted_add_mem_self _ _, trivial, trivial⟩

/-- Witness for C2: the same concrete entry: with a failing send nothing is
marked and nothing saved; with a succeeding send the link is marked and one
save happens; the relay records and counts a publishable message. -/
theorem c2_witness :
    (process_entry ⟨[], [], [], [], 0⟩
      ⟨"Breaking News", "http://a/1", "Something happened today", "", []⟩
      ⟨none, ⟨none, none, none⟩, ⟨none, none, none⟩, ⟨none, none, none⟩,
       ResearchOutcome.exc "x", none, false, [], []⟩).1.posted_links = [] ∧
    (process_entry ⟨[], [], [], [], 0⟩
      ⟨"Breaking News", "http://a/1", "Something happened today", "", []⟩
      ⟨none, ⟨none, none, none⟩, ⟨none, none, none⟩, ⟨none, none, none⟩,
       ResearchOutcome.exc "x", none, false, [], []⟩).1.content_checks = [] ∧
    (process_entry ⟨[], [], [], [], 0⟩
      ⟨"Breaking News", "http://a/1", "Something happened today", "", []⟩
      ⟨none, ⟨none, none, none⟩, ⟨none, none, none⟩, ⟨none, none, none⟩,
       ResearchOutcome.exc "x", none, false, [], []⟩).1.saves = 0 ∧
    (process_entry ⟨[], [], [], [], 0⟩
      ⟨"Breaking News", "http://a/1", "Something happened today", "", []⟩
      ⟨none, ⟨none, none, none⟩, ⟨none, none, none⟩, ⟨none, none, none⟩,
       ResearchOutcome.exc "x", none, false, [], []⟩).2 = false ∧
    (process_entry ⟨[], [], [], [], 0⟩
      ⟨"Breaking News", "http://a/1", "Something happened today", "", []⟩
      ⟨none, ⟨none, none, none⟩, ⟨none, none, none⟩, ⟨none, none, none⟩,
       ResearchOutcome.exc "x", none, true, [], []⟩).2 = true ∧
    ("http://a/1" : String) ∈ (process_entry ⟨[], [], [], [], 0⟩
      ⟨"Breaking News", "http://a/1", "Something happened today", "", []⟩
      ⟨none, ⟨none, none, none⟩, ⟨none, none, none⟩, ⟨none, none, none⟩,
       ResearchOutcome.exc "x", none, true, [], []⟩).1.posted_links ∧
    (process_entry ⟨[], [], [], [], 0⟩
      ⟨"Breaking News", "http://a/1", "Something happened today", "", []⟩
      ⟨none, ⟨none, none, none⟩, ⟨none, none, none⟩, ⟨none, none, none⟩,
       ResearchOutcome.exc "x", none, true, [], []⟩).1.saves = 1 ∧
    ((1 : Int), "c") ∈ (relay_process_message ⟨[], 0, 0⟩ "c"
      ⟨"c", 1, "hi", "hi", none, true, true⟩).1.posted ∧
    (relay_process_message ⟨[], 0, 0⟩ "c"
      ⟨"c", 1, "hi", "hi", none, true, true⟩).1.totalMessages = 1 := by
  have hfail := c2_mark_only_after_success.1 ⟨[], [], [], [], 0⟩
    ⟨"Breaking News", "http://a/1", "Something happened today", "", []⟩
    ⟨none, ⟨none, none, none⟩, ⟨none, none, none⟩, ⟨none, none, none⟩,
     ResearchOutcome.exc "x", none, false, [], []⟩ rfl
  obtain ⟨item, c, rc, hps, hlinkeq, hhash⟩ :=
    prepare_eq_some ⟨[], [], [], [], 0⟩
      ⟨"Breaking News", "http://a/1", "Something happened today", "", []⟩
      ⟨none, ⟨none, none, none⟩, ⟨none, none, none⟩, ⟨none, none, none⟩,
       ResearchOutcome.exc "x", none, true, [], []⟩
      (clean_content "Something happened today" 500)
      (by decide) (by decide) (by decide) (by decide) (by decide)
  have hsucc := c2_mark_only_after_success.2.1 ⟨[], [], [], [], 0⟩
    ⟨"Breaking News", "http://a/1", "Something happened today", "", []⟩
    ⟨none, ⟨none, none, none⟩, ⟨none, none, none⟩, ⟨none, none, none⟩,
     ResearchOutcome.exc "x", none, true, [], []⟩ item c rc hps rfl
    (by decide) (by decide)
  have hbot := (c2_mark_only_after_success.2.2 ⟨[], 0, 0⟩ "c"
    ⟨"c", 1, "hi", "hi", none, true, true⟩).2 (by decide) (by decide)
  have hlink2 : ("http://a/1" : String) ∈ (process_entry ⟨[], [], [], [], 0⟩
      ⟨"Breaking News", "http://a/1", "Something happened today", "", []⟩
      ⟨none, ⟨none, none, none⟩, ⟨none, none, none⟩, ⟨none, none, none⟩,
       ResearchOutcome.exc "x", none, true, [], []⟩).1.posted_links := by
    have h := hsucc.2.1
    rw [show item.link = "http://a/1" from hlinkeq] at h
    exact h
  exact ⟨hfail.1, hfail.2.1, hfail.2.2.1, hfail.2.2.2, hsucc.1,
    hlink2, hsucc.2.2.2, hbot.1, hbot.2.1⟩
